import Mathlib

/-!
Verification of the nvestiv-chrome intelligence pipeline.

This file gives a shallow embedding of the core services of the repository
(reconciliation service, report worker, entity manager, web research service,
embedding service) and proves the frozen claims about them.

JavaScript runtime values flowing through `JSON.parse`, `stripNulls` and the
default-filling pass are modelled by the inductive type `Json` below, with an
explicit `undef` constructor for JavaScript `undefined` (never produced by
parsing, but produced by `stripNulls`). JSON numbers are modelled exactly as
rationals; strings are Lean strings (the sources only manipulate them
code-unit-agnostically).
-/

namespace Nvestiv

/-- JavaScript/JSON runtime values as manipulated by the reconciliation
service. `undef` models JavaScript `undefined`. -/
inductive Json where
  | null
  | undef
  | bool (b : Bool)
  | num (q : ℚ)
  | str (s : String)
  | arr (elems : List Json)
  | obj (fields : List (String × Json))
deriving Repr, Inhabited

/-- JSON whitespace characters. -/
def isWs (c : Char) : Bool :=
  c = ' ' || c = '\n' || c = '\t' || c = '\r'

/-- Drop leading JSON whitespace from a character list. -/
def skipWsL : List Char → List Char
  | c :: cs => if isWs c then skipWsL cs else c :: cs
  | [] => []

/-- Value of a hexadecimal digit, if any. -/
def hexVal (c : Char) : Option Nat :=
  if '0' ≤ c ∧ c ≤ '9' then some (c.toNat - '0'.toNat)
  else if 'a' ≤ c ∧ c ≤ 'f' then some (c.toNat - 'a'.toNat + 10)
  else if 'A' ≤ c ∧ c ≤ 'F' then some (c.toNat - 'A'.toNat + 10)
  else none

/-- Parse the body of a JSON string literal (the opening quote already
consumed), handling the JSON escape sequences. Returns the decoded string and
the remaining input. -/
def parseStrAux (acc : List Char) : List Char → Option (String × List Char)
  | [] => none
  | c :: cs =>
    if c = '"' then some (String.mk acc.reverse, cs)
    else if c = '\\' then
      match cs with
      | [] => none
      | e :: cs2 =>
        if e = '"' then parseStrAux ('"' :: acc) cs2
        else if e = '\\' then parseStrAux ('\\' :: acc) cs2
        else if e = '/' then parseStrAux ('/' :: acc) cs2
        else if e = 'b' then parseStrAux ('\x08' :: acc) cs2
        else if e = 'f' then parseStrAux ('\x0c' :: acc) cs2
        else if e = 'n' then parseStrAux ('\n' :: acc) cs2
        else if e = 'r' then parseStrAux ('\r' :: acc) cs2
        else if e = 't' then parseStrAux ('\t' :: acc) cs2
        else if e = 'u' then
          match cs2 with
          | h1 :: h2 :: h3 :: h4 :: cs3 =>
            match hexVal h1, hexVal h2, hexVal h3, hexVal h4 with
            | some a, some b, some c2, some d =>
              parseStrAux (Char.ofNat (((a * 16 + b) * 16 + c2) * 16 + d) :: acc) cs3
            | _, _, _, _ => none
          | _ => none
        else none
    else parseStrAux (c :: acc) cs

/-- Collect leading decimal digits. -/
def takeDigits : List Char → (List Char × List Char)
  | c :: cs =>
    if '0' ≤ c ∧ c ≤ '9' then
      let (ds, rest) := takeDigits cs
      (c :: ds, rest)
    else ([], c :: cs)
  | [] => ([], [])

/-- Numeric value of a list of decimal digits. -/
def digitsToNat (ds : List Char) : Nat :=
  ds.foldl (fun acc c => acc * 10 + (c.toNat - '0'.toNat)) 0

/-- Parse a JSON number literal (JSON grammar: optional minus, integer part
with no leading zeros, optional fraction, optional exponent), exactly, as a
rational. -/
def parseNumber (l : List Char) : Option (ℚ × List Char) :=
  let (neg, l1) := match l with
    | '-' :: rest => (true, rest)
    | _ => (false, l)
  let (intDs, l2) := takeDigits l1
  match intDs with
  | [] => none
  | d0 :: ds0 =>
    -- JSON forbids leading zeros in the integer part
    if d0 = '0' ∧ ds0 ≠ [] then none else
    match l2 with
    | '.' :: rest =>
      -- a fraction dot must be followed by at least one digit
      let (fracDs, l3) := takeDigits rest
      if fracDs = [] then none
      else
        mkExp neg
          ((digitsToNat intDs : ℚ) + (digitsToNat fracDs : ℚ) / ((10 : ℚ) ^ fracDs.length))
          l3
    | _ => mkExp neg (digitsToNat intDs : ℚ) l2
where
  mkExp (neg : Bool) (mant : ℚ) (l : List Char) : Option (ℚ × List Char) :=
    match l with
    | 'e' :: rest => expTail neg mant rest
    | 'E' :: rest => expTail neg mant rest
    | _ => some ((if neg then -mant else mant), l)
  expTail (neg : Bool) (mant : ℚ) (rest : List Char) : Option (ℚ × List Char) :=
    let (eneg, r1) := match rest with
      | '-' :: r => (true, r)
      | '+' :: r => (false, r)
      | _ => (false, rest)
    let (eDs, r2) := takeDigits r1
    if eDs = [] then none
    else
      let e := digitsToNat eDs
      let scaled := if eneg then mant / (10 : ℚ) ^ e else mant * (10 : ℚ) ^ e
      some ((if neg then -scaled else scaled), r2)

/-- Insert or replace a field of a JavaScript object (last duplicate key
wins, position of the first occurrence kept — `JSON.parse` semantics). -/
def setFObj (fs : List (String × Json)) (k : String) (v : Json) : List (String × Json) :=
  if (fs.lookup k).isSome then
    fs.map fun (k2, w) => if k2 = k then (k2, v) else (k2, w)
  else fs ++ [(k, v)]

/-- The three modes of the recursive descent: a value, the members of an
object after its opening brace, or the elements of an array after its
opening bracket. -/
inductive PMode where
  | value
  | objFields (isFirst : Bool) (acc : List (String × Json))
  | arrElems (isFirst : Bool) (acc : List Json)

/-- Fueled recursive-descent JSON parser (models `JSON.parse` on the JSON
grammar); the mode selects between value, object-member and array-element
parsing. -/
def parseRun : Nat → PMode → List Char → Option (Json × List Char)
  | 0, _, _ => none
  | fuel + 1, .value, input =>
    match skipWsL input with
    | [] => none
    | c :: cs =>
      if c = '"' then
        match parseStrAux [] cs with
        | some (s, rest) => some (.str s, rest)
        | none => none
      else if c = '{' then parseRun fuel (.objFields true []) cs
      else if c = '[' then parseRun fuel (.arrElems true []) cs
      else if c = 't' then
        match cs with
        | 'r' :: 'u' :: 'e' :: rest => some (.bool true, rest)
        | _ => none
      else if c = 'f' then
        match cs with
        | 'a' :: 'l' :: 's' :: 'e' :: rest => some (.bool false, rest)
        | _ => none
      else if c = 'n' then
        match cs with
        | 'u' :: 'l' :: 'l' :: rest => some (.null, rest)
        | _ => none
      else
        match parseNumber (c :: cs) with
        | some (q, rest) => some (.num q, rest)
        | none => none
  | fuel + 1, .objFields isFirst acc, input =>
    match skipWsL input with
    | [] => none
    | c :: cs =>
      if c = '}' ∧ isFirst then some (.obj acc, cs)
      else
        -- after the first member a comma is required before the next,
        -- and a closing brace ends the object
        let afterComma : Option (List Char) :=
          if isFirst then some (c :: cs)
          else if c = ',' then some cs
          else none
        match afterComma with
        | none => if c = '}' then some (.obj acc, cs) else none
        | some l1 =>
          match skipWsL l1 with
          | '"' :: l2 =>
            match parseStrAux [] l2 with
            | some (key, l3) =>
              match skipWsL l3 with
              | ':' :: l4 =>
                match parseRun fuel .value l4 with
                | some (v, l5) => parseRun fuel (.objFields false (setFObj acc key v)) (skipWsL l5)
                | none => none
              | _ => none
            | none => none
          | _ => none
  | fuel + 1, .arrElems isFirst acc, input =>
    match skipWsL input with
    | [] => none
    | c :: cs =>
      if c = ']' ∧ isFirst then some (.arr acc, cs)
      else
        let afterComma : Option (List Char) :=
          if isFirst then some (c :: cs)
          else if c = ',' then some cs
          else none
        match afterComma with
        | none => if c = ']' then some (.arr acc, cs) else none
        | some l1 =>
          match parseRun fuel .value l1 with
          | some (v, l2) => parseRun fuel (.arrElems false (acc ++ [v])) (skipWsL l2)
          | none => none

/-- Parse one JSON value. -/
def parseValue (fuel : Nat) (input : List Char) : Option (Json × List Char) :=
  parseRun fuel .value input

/-- `JSON.parse`: parse a whole string as one JSON document, rejecting
trailing garbage. Returns `none` where `JSON.parse` would throw. -/
def jsonParse (s : String) : Option Json :=
  match parseValue (2 * s.length + 2) s.data with
  | some (v, rest) => if skipWsL rest = [] then some v else none
  | none => none

/-! ### Staged extraction of JSON from a model response
(`reconcileResearch`, reconciliationService.ts lines 315-357) -/

/-- The characters of the fence-opening token of the code-block regex. -/
def fenceOpen : List Char := '`' :: '`' :: '`' :: 'j' :: 's' :: 'o' :: 'n' :: []

/-- The characters of the fence-closing token. -/
def fenceClosing : List Char := '`' :: '`' :: '`' :: []

/-- Lazy completion of the regex match: the capture group stops at the
earliest position from which optional whitespace followed by a closing fence
matches the rest of the input. -/
def fenceClose (acc : List Char) : List Char → Option String
  | [] => none
  | c :: cs =>
    if fenceClosing.isPrefixOf (skipWsL (c :: cs)) then some (String.mk acc.reverse)
    else fenceClose (c :: acc) cs

/-- The regex match of the fenced-code-block pattern used by the service:
scan left to right for an opening token followed (lazily) by a closing token,
returning the capture group with surrounding whitespace stripped. -/
def findFenceRec : List Char → Option String
  | [] => none
  | c :: cs =>
    if fenceOpen.isPrefixOf (c :: cs) then
      let after := (c :: cs).drop fenceOpen.length
      match fenceClose [] (skipWsL after) with
      | some captured => some captured
      | none => findFenceRec cs
    else findFenceRec cs

/-- `text.indexOf(c)` as a character position, if present. -/
def firstIdx (c : Char) (l : List Char) : Option Nat :=
  match l with
  | [] => none
  | x :: xs => if x = c then some 0 else (firstIdx c xs).map (· + 1)

/-- `text.lastIndexOf(c)` as a character position, if present. -/
def lastIdx (c : Char) (l : List Char) : Option Nat :=
  match lastIdx2 l with
  | some k => some k
  | none => none
where
  lastIdx2 : List Char → Option Nat
    | [] => none
    | x :: xs =>
      match lastIdx2 xs with
      | some k => some (k + 1)
      | none => if x = c then some 0 else none

/-- The candidate JSON substring extracted from a raw model response when
direct parsing failed: a fenced code block if the regex matches, else the
slice from the first opening brace to the last closing brace if both exist,
else the text unchanged. -/
def extractJsonCandidate (text : String) : String :=
  match findFenceRec text.data with
  | some captured => captured
  | none =>
    match firstIdx '{' text.data, lastIdx '}' text.data with
    | some firstBrace, some lastBrace =>
      String.mk ((text.data.drop firstBrace).take (lastBrace + 1 - firstBrace))
    | _, _ => text

/-- State of the character scan of the truncated-JSON repair. -/
structure RepairSt where
  braces : Int
  brackets : Int
  inString : Bool
  escapeNext : Bool
deriving Repr

/-- The character-by-character scan of the repair procedure: track
string-literal and escape state, count unbalanced braces and brackets
outside string literals. -/
def repairScan (st : RepairSt) : List Char → RepairSt
  | [] => st
  | c :: cs =>
    if st.escapeNext then repairScan { st with escapeNext := false } cs
    else if c = '\\' then repairScan { st with escapeNext := true } cs
    else if c = '"' then repairScan { st with inString := !st.inString } cs
    else if st.inString then repairScan st cs
    else if c = '{' then repairScan { st with braces := st.braces + 1 } cs
    else if c = '}' then repairScan { st with braces := st.braces - 1 } cs
    else if c = '[' then repairScan { st with brackets := st.brackets + 1 } cs
    else if c = ']' then repairScan { st with brackets := st.brackets - 1 } cs
    else repairScan st cs

/-- Repair a truncated JSON string: close a dangling string literal, then
append the closing brackets and braces needed to balance the scan counts. -/
def repairJson (s : String) : String :=
  let st := repairScan ⟨0, 0, false, false⟩ s.data
  let s1 := if st.inString then s ++ "\"" else s
  let s2 := s1 ++ String.mk (List.replicate st.brackets.toNat ']')
  s2 ++ String.mk (List.replicate st.braces.toNat '}')

/-- The staged parse of a synthesis-model response: direct parse; on failure
extract a fenced block or the first-to-last-brace substring; on failure
repair and parse once more. -/
def parseStaged (text : String) : Option Json :=
  match jsonParse text with
  | some v => some v
  | none =>
    let jsonStr := extractJsonCandidate text
    match jsonParse jsonStr with
    | some v => some v
    | none => jsonParse (repairJson jsonStr)

/-! ### Null stripping and default filling
(reconciliationService.ts lines 249-261 and 359-379) -/

mutual

/-- `stripNulls`: nulls become `undefined`; object fields whose stripped
value is `undefined` are dropped; arrays map elementwise (JavaScript
`Array.map` keeps the `undefined` slots). -/
def stripNulls : Json → Json
  | .null => Json.undef
  | .arr xs => .arr (stripNullsList xs)
  | .obj fs => .obj (stripNullsFields fs)
  | j => j

/-- Elementwise `stripNulls` over an array. -/
def stripNullsList : List Json → List Json
  | [] => []
  | x :: xs => stripNulls x :: stripNullsList xs

/-- `stripNulls` over object fields, dropping fields that strip to
`undefined`. -/
def stripNullsFields : List (String × Json) → List (String × Json)
  | [] => []
  | (k, v) :: fs =>
    match stripNulls v with
    | .undef => stripNullsFields fs
    | w => (k, w) :: stripNullsFields fs

end

/-- JavaScript truthiness of a modelled runtime value. -/
def truthy : Json → Bool
  | .null => false
  | .undef => false
  | .bool b => b
  | .num q => q ≠ 0
  | .str s => s ≠ ""
  | .arr _ => true
  | .obj _ => true

/-- JavaScript property read `j[k]`: a `TypeError` on `null`/`undefined`,
the field (or `undefined`) on an object, `undefined` on other values. -/
def getFieldE (j : Json) (k : String) : Except String Json :=
  match j with
  | .null => .error "TypeError: cannot read properties of null"
  | .undef => .error "TypeError: cannot read properties of undefined"
  | .obj fs => .ok ((fs.lookup k).getD .undef)
  | _ => .ok Json.undef

/-- JavaScript property write `j[k] = v` in strict mode: updates an object;
is invisible to later JSON processing on an array (expando property); throws
on primitives and nullish values. -/
def setFieldE (j : Json) (k : String) (v : Json) : Except String Json :=
  match j with
  | .obj fs => .ok (.obj (setFObj fs k v))
  | .arr _ => .ok j
  | .null => .error "TypeError: cannot set properties of null"
  | .undef => .error "TypeError: cannot set properties of undefined"
  | _ => .error "TypeError: cannot create property on a primitive"

/-- Property write on a value known to be an object (write-back of a field
the code mutated through an alias). -/
def setF (j : Json) (k : String) (v : Json) : Json :=
  match j with
  | .obj fs => .obj (setFObj fs k v)
  | _ => j

/-- Default filling for one subsection:
missing/falsy `confidence_level` becomes `confirmed`, missing/falsy
`confidence_note` becomes the empty string. -/
def applySubDefaults (sub : Json) : Except String Json := do
  let cl ← getFieldE sub "confidence_level"
  let sub ← if truthy cl then pure sub else setFieldE sub "confidence_level" (.str "confirmed")
  let cn ← getFieldE sub "confidence_note"
  if truthy cn then pure sub else setFieldE sub "confidence_note" (.str "")

/-- Default filling for one section: walk its `subsections` when they form
an array (`for...of`; a truthy non-iterable value throws). -/
def applySectionDefaults (sec : Json) : Except String Json := do
  let subs ← getFieldE sec "subsections"
  if truthy subs then
    match subs with
    | .arr xs => do
      let xs2 ← xs.mapM applySubDefaults
      pure (setF sec "subsections" (.arr xs2))
    | .str _ =>
      -- iterating a string visits its characters; a character has no
      -- `confidence_level` property and setting one on a primitive throws
      .error "TypeError: cannot create property on a primitive"
    | _ => .error "TypeError: subsections is not iterable"
  else pure sec

/-- The default-filling pass of `reconcileResearch` over the parsed and
null-stripped document (reconciliationService.ts lines 362-379). -/
def applyDefaults (parsed : Json) : Except String Json := do
  let subject ← getFieldE parsed "subject"
  let parsed ←
    if truthy subject then do
      let im ← getFieldE subject "identity_markers"
      if truthy im then pure parsed
      else do
        let subject2 ← setFieldE subject "identity_markers" (.arr [])
        pure (setF parsed "subject" subject2)
    else pure parsed
  let abstract ← getFieldE parsed "abstract"
  let parsed ←
    if truthy abstract then do
      let ic ← getFieldE abstract "identity_confidence"
      let abstract ←
        if truthy ic then pure abstract
        else setFieldE abstract "identity_confidence" (.str "likely")
      let inotes ← getFieldE abstract "identity_notes"
      let abstract ←
        if truthy inotes then pure abstract
        else setFieldE abstract "identity_notes" (.str "")
      pure (setF parsed "abstract" abstract)
    else pure parsed
  let sections ← getFieldE parsed "sections"
  if truthy sections then
    match sections with
    | .arr xs => do
      let xs2 ← xs.mapM applySectionDefaults
      pure (setF parsed "sections" (.arr xs2))
    | .str _ =>
      -- iterating a string visits its characters, none of which has a
      -- truthy `subsections` property, so the loop body never acts
      pure parsed
    | _ => .error "TypeError: sections is not iterable"
  else pure parsed

/-! ### The report schema (zod `reportSchema`, reconciliationService.ts lines 25-93) -/

/-- The confidence-level enumeration. -/
inductive ConfLevel where
  | confirmed
  | likely
  | uncertain
deriving Repr, DecidableEq, Inhabited

/-- The subject entity-type enumeration. -/
inductive SubjectEntityType where
  | person
  | company
  | fund
deriving Repr, DecidableEq, Inhabited

/-- The citation source-type enumeration. -/
inductive CitationSourceType where
  | news
  | database
  | website
  | profile
  | sec_filing
  | press_release
deriving Repr, DecidableEq, Inhabited

/-- One citation of the report schema. -/
structure Citation where
  id : ℚ
  citation_number : String
  text : String
  source_title : String
  source_url : String
  source_type : CitationSourceType
  accessed_date : String
  publication_date : Option String
  author : Option String
  publisher : Option String
deriving Repr, DecidableEq, Inhabited

/-- One subsection of the report schema. -/
structure Subsection where
  subsection_id : String
  title : String
  content : String
  confidence_level : ConfLevel
  confidence_note : String
  structured_data : List (String × Json)
  citations : List Citation
deriving Repr, Inhabited

/-- One section of the report schema. -/
structure Section where
  section_id : String
  section_number : ℚ
  title : String
  subsections : List Subsection
deriving Repr, Inhabited

/-- The subject block of the report schema. -/
structure SubjectBlock where
  entity_type : SubjectEntityType
  full_name : String
  current_title : Option String
  current_company : Option String
  location : Option String
  profile_photo_url : Option String
  linkedin_url : Option String
  email : Option String
  phone : Option String
  identity_markers : List String
deriving Repr, DecidableEq, Inhabited

/-- The abstract block of the report schema. -/
structure Abstract where
  summary : String
  key_findings : List String
  relevance_score : ℚ
  relevance_notes : String
  identity_confidence : ConfLevel
  identity_notes : String
deriving Repr, DecidableEq, Inhabited

/-- The bibliography block of the report schema. -/
structure Bibliography where
  total_sources : ℚ
  sources_by_type : List (String × ℚ)
  all_sources : List Json
deriving Repr, Inhabited

/-- The metadata block of the report schema. -/
structure Metadata where
  generation_time_seconds : ℚ
  ai_model : String
  total_tokens : ℚ
  sources_analyzed : ℚ
  quality_score : ℚ
  completeness_score : ℚ
  confidence_scores : List (String × ℚ)
deriving Repr, DecidableEq, Inhabited

/-- The validated report (`GeneratedReport`). -/
structure GeneratedReport where
  subject : SubjectBlock
  abstract : Abstract
  sections : List Section
  bibliography : Bibliography
  metadata : Metadata
deriving Repr, Inhabited

/-- zod `z.string()`. -/
def vString : Json → Except String String
  | .str s => .ok s
  | _ => .error "expected string"

/-- zod `z.number()`. -/
def vNumber : Json → Except String ℚ
  | .num q => .ok q
  | _ => .error "expected number"

/-- zod `z.number().min(lo).max(hi)`. -/
def vNumRange (lo hi : ℚ) (j : Json) : Except String ℚ := do
  let q ← vNumber j
  if lo ≤ q ∧ q ≤ hi then pure q else .error "number out of range"

/-- zod `z.string().nullable().optional()`: absent and null both validate to
an absent value. -/
def vNullOptString : Json → Except String (Option String)
  | .undef => .ok none
  | .null => .ok none
  | .str s => .ok (some s)
  | _ => .error "expected string or null"

/-- zod `z.string().default(d)`. -/
def vStringDefault (d : String) : Json → Except String String
  | .undef => .ok d
  | .str s => .ok s
  | _ => .error "expected string"

/-- zod `z.array(f)`. -/
def vArrayOf (f : Json → Except String α) : Json → Except String (List α)
  | .arr xs => xs.mapM f
  | _ => .error "expected array"

/-- zod `z.array(z.string()).default([])`. -/
def vStringArrayDefault : Json → Except String (List String)
  | .undef => .ok []
  | .arr xs => xs.mapM vString
  | _ => .error "expected array"

/-- zod `z.record(f)`: a plain object whose values all validate. -/
def vRecordOf (f : Json → Except String α) : Json → Except String (List (String × α))
  | .obj fs => fs.mapM fun (k, v) => do pure (k, ← f v)
  | _ => .error "expected record"

/-- zod `z.record(z.unknown()).default({})`. -/
def vRecordUnknownDefault : Json → Except String (List (String × Json))
  | .undef => .ok []
  | .obj fs => .ok fs
  | _ => .error "expected record"

/-- zod `confidenceLevelEnum`. -/
def vConfLevel : Json → Except String ConfLevel
  | .str "confirmed" => .ok .confirmed
  | .str "likely" => .ok .likely
  | .str "uncertain" => .ok .uncertain
  | _ => .error "expected confidence level"

/-- zod `confidenceLevelEnum.default(d)`. -/
def vConfLevelDefault (d : ConfLevel) : Json → Except String ConfLevel
  | .undef => .ok d
  | j => vConfLevel j

/-- zod enum on the subject entity type. -/
def vSubjectEntityType : Json → Except String SubjectEntityType
  | .str "person" => .ok .person
  | .str "company" => .ok .company
  | .str "fund" => .ok .fund
  | _ => .error "expected entity type"

/-- zod enum on the citation source type. -/
def vCitationSourceType : Json → Except String CitationSourceType
  | .str "news" => .ok .news
  | .str "database" => .ok .database
  | .str "website" => .ok .website
  | .str "profile" => .ok .profile
  | .str "sec_filing" => .ok .sec_filing
  | .str "press_release" => .ok .press_release
  | _ => .error "expected source type"

/-- zod `z.object`: the input must be a plain object; extra keys are
stripped, missing keys read as absent. -/
def asObj : Json → Except String (List (String × Json))
  | .obj fs => .ok fs
  | _ => .error "expected object"

/-- Field read during object validation (missing key reads as absent). -/
def fget (fs : List (String × Json)) (k : String) : Json :=
  (fs.lookup k).getD Json.undef

/-- Validation of one citation object. -/
def validateCitation (j : Json) : Except String Citation := do
  let fs ← asObj j
  pure {
    id := ← vNumber (fget fs "id")
    citation_number := ← vString (fget fs "citation_number")
    text := ← vString (fget fs "text")
    source_title := ← vString (fget fs "source_title")
    source_url := ← vString (fget fs "source_url")
    source_type := ← vCitationSourceType (fget fs "source_type")
    accessed_date := ← vString (fget fs "accessed_date")
    publication_date := ← vNullOptString (fget fs "publication_date")
    author := ← vNullOptString (fget fs "author")
    publisher := ← vNullOptString (fget fs "publisher")
  }

/-- Validation of one subsection object. -/
def validateSubsection (j : Json) : Except String Subsection := do
  let fs ← asObj j
  pure {
    subsection_id := ← vString (fget fs "subsection_id")
    title := ← vString (fget fs "title")
    content := ← vString (fget fs "content")
    confidence_level := ← vConfLevelDefault .confirmed (fget fs "confidence_level")
    confidence_note := ← vStringDefault "" (fget fs "confidence_note")
    structured_data := ← vRecordUnknownDefault (fget fs "structured_data")
    citations := ← vArrayOf validateCitation (fget fs "citations")
  }

/-- Validation of one section object. -/
def validateSection (j : Json) : Except String Section := do
  let fs ← asObj j
  pure {
    section_id := ← vString (fget fs "section_id")
    section_number := ← vNumber (fget fs "section_number")
    title := ← vString (fget fs "title")
    subsections := ← vArrayOf validateSubsection (fget fs "subsections")
  }

/-- Validation of the subject block. -/
def validateSubject (j : Json) : Except String SubjectBlock := do
  let fs ← asObj j
  pure {
    entity_type := ← vSubjectEntityType (fget fs "entity_type")
    full_name := ← vString (fget fs "full_name")
    current_title := ← vNullOptString (fget fs "current_title")
    current_company := ← vNullOptString (fget fs "current_company")
    location := ← vNullOptString (fget fs "location")
    profile_photo_url := ← vNullOptString (fget fs "profile_photo_url")
    linkedin_url := ← vNullOptString (fget fs "linkedin_url")
    email := ← vNullOptString (fget fs "email")
    phone := ← vNullOptString (fget fs "phone")
    identity_markers := ← vStringArrayDefault (fget fs "identity_markers")
  }

/-- Validation of the abstract block. -/
def validateAbstract (j : Json) : Except String Abstract := do
  let fs ← asObj j
  pure {
    summary := ← vString (fget fs "summary")
    key_findings := ← vArrayOf vString (fget fs "key_findings")
    relevance_score := ← vNumRange 0 100 (fget fs "relevance_score")
    relevance_notes := ← vString (fget fs "relevance_notes")
    identity_confidence := ← vConfLevelDefault .likely (fget fs "identity_confidence")
    identity_notes := ← vStringDefault "" (fget fs "identity_notes")
  }

/-- Validation of the bibliography block. -/
def validateBibliography (j : Json) : Except String Bibliography := do
  let fs ← asObj j
  pure {
    total_sources := ← vNumber (fget fs "total_sources")
    sources_by_type := ← vRecordOf vNumber (fget fs "sources_by_type")
    all_sources := ← vArrayOf (fun x => Except.ok x) (fget fs "all_sources")
  }

/-- Validation of the metadata block. -/
def validateMetadata (j : Json) : Except String Metadata := do
  let fs ← asObj j
  pure {
    generation_time_seconds := ← vNumber (fget fs "generation_time_seconds")
    ai_model := ← vString (fget fs "ai_model")
    total_tokens := ← vNumber (fget fs "total_tokens")
    sources_analyzed := ← vNumber (fget fs "sources_analyzed")
    quality_score := ← vNumber (fget fs "quality_score")
    completeness_score := ← vNumber (fget fs "completeness_score")
    confidence_scores := ← vRecordOf vNumber (fget fs "confidence_scores")
  }

/-- `reportSchema.parse`. -/
def validateReport (j : Json) : Except String GeneratedReport := do
  let fs ← asObj j
  pure {
    subject := ← validateSubject (fget fs "subject")
    abstract := ← validateAbstract (fget fs "abstract")
    sections := ← vArrayOf validateSection (fget fs "sections")
    bibliography := ← validateBibliography (fget fs "bibliography")
    metadata := ← validateMetadata (fget fs "metadata")
  }

/-! ### `reconcileResearch` (reconciliationService.ts lines 263-439)

The Anthropic call of each attempt is an external effect; the model takes
an oracle `calls` mapping the attempt number to the call outcome — either a
thrown error or the concatenated text blocks together with the token count
`input_tokens + output_tokens`. -/

/-- One research agent result as consumed by the reconciler. -/
structure ResearchResult where
  content : String
  citations : List String
  searchTimeSec : ℚ
  model : String
  tokensUsed : Nat
deriving Repr, DecidableEq, Inhabited

/-- The three agents' results handed to the reconciler. -/
structure ResearchInput where
  gemini : ResearchResult
  perplexity : ResearchResult
  openai : ResearchResult
deriving Repr, DecidableEq, Inhabited

/-- The composite council label stamped into `metadata.ai_model`. -/
def councilLabel : String := "council:gemini+perplexity+openai→claude-sonnet-4.5"

/-- The deduplicated union of the three agents' citation lists, as built by
`new Set([...gemini, ...perplexity, ...openai])` (insertion order, first
occurrence kept; `.size` is the length). -/
def totalCitationsOf (research : ResearchInput) : List String :=
  (research.gemini.citations ++ research.perplexity.citations ++
    research.openai.citations).eraseDups

/-- The combined token count stamped into `metadata.total_tokens`: the three
agents' counts plus the reconciliation call's count. -/
def totalResearchTokensOf (research : ResearchInput) (callTokens : Nat) : Nat :=
  research.gemini.tokensUsed + research.perplexity.tokensUsed +
    research.openai.tokensUsed + callTokens

/-- One reconciliation attempt: run the synthesis call, the staged parse,
null stripping, default filling and schema validation, then stamp the
council metadata. `elapsedSec` models `Math.round((Date.now() - startTime)
/ 1000)` at stamping time. -/
def runAttempt (research : ResearchInput) (elapsedSec : ℚ)
    (callResult : Except String (String × Nat)) : Except String GeneratedReport := do
  let (text, totalTokens) ← callResult
  let parsed ←
    match parseStaged text with
    | some p => pure p
    | none => Except.error "SyntaxError: JSON parse failed"
  let parsed := stripNulls parsed
  let parsed ← applyDefaults parsed
  let validated ← validateReport parsed
  pure { validated with
    metadata := { validated.metadata with
      generation_time_seconds := elapsedSec
      ai_model := councilLabel
      total_tokens := (totalResearchTokensOf research totalTokens : ℚ)
      sources_analyzed := ((totalCitationsOf research).length : ℚ) } }

/-- Outcome of running the reconciliation retry loop: how many attempts were
made, the waits (in milliseconds) inserted between attempts, and the final
result (the error of the last attempt when all three fail). -/
structure ReconcileRun where
  attemptsMade : Nat
  delays : List Nat
  result : Except String GeneratedReport
deriving Repr, Inhabited

/-- The retry loop `for (let attempt = 1; attempt <= 3; attempt++)`: a
failed attempt with `attempt === 3` rethrows; otherwise the worker sleeps
`attempt * 10_000` milliseconds and retries. The fuel counts the loop
iterations left; its exhaustion mirrors the (unreachable) post-loop
`throw new Error('Reconciliation failed after 3 attempts')`. -/
def reconcileGo (research : ResearchInput) (elapsedSec : ℚ)
    (calls : Nat → Except String (String × Nat)) :
    Nat → Nat → List Nat → ReconcileRun
  | _, 0, delays => ⟨3, delays, .error "Reconciliation failed after 3 attempts"⟩
  | attempt, fuel + 1, delays =>
    match runAttempt research elapsedSec (calls attempt) with
    | .ok r => ⟨attempt, delays, .ok r⟩
    | .error e =>
      if 3 ≤ attempt then ⟨attempt, delays, .error e⟩
      else reconcileGo research elapsedSec calls (attempt + 1) fuel
        (delays ++ [attempt * 10000])

/-- `reconcileResearch` as a function of the call oracle. -/
def reconcileResearch (research : ResearchInput) (elapsedSec : ℚ)
    (calls : Nat → Except String (String × Nat)) : ReconcileRun :=
  reconcileGo research elapsedSec calls 1 3 []

/-! ### The report worker (reportWorker, reconciliationService.ts source
lines 440-697 of the combined file)

External effects are inputs: the three settled agent outcomes, the entity
lookup, the reconciliation call oracle, and the outcomes of the report
insert, the embedding step and the entity update. The worker's persisted
writes are collected in an event trace. -/

/-- Job status values written by the worker. -/
inductive JobStatus where
  | processing
  | completed
  | failed
deriving Repr, DecidableEq, Inhabited

/-- The ten ordered step labels (`REPORT_STEPS`). -/
def REPORT_STEPS : List String := [
  "Starting research",
  "Running 3 research agents in parallel",
  "Agent A (Gemini/Jina) searching",
  "Agent B (Perplexity) deep research",
  "Agent C (OpenAI) deep research",
  "Reconciling findings with Claude",
  "Storing report data",
  "Generating embeddings",
  "Updating entity records",
  "Finalizing report"]

/-- One persisted `report_jobs` update written by `updateJobProgress`. -/
structure ProgressUpdate where
  stepIndex : Nat
  status : JobStatus
  progress : ℤ
  current_step : String
  completed_steps : List String
  remaining_steps : List String
deriving Repr, DecidableEq, Inhabited

/-- `updateJobProgress`: progress is
`Math.round(((stepIndex + 1) / REPORT_STEPS.length) * 100)`, the completed
steps are the labels before the current one and the remaining steps the
labels after it. -/
def mkProgressUpdate (stepIndex : Nat) (status : JobStatus) : ProgressUpdate :=
  { stepIndex := stepIndex
    status := status
    progress := round (((stepIndex + 1 : ℚ) / (REPORT_STEPS.length : ℚ)) * 100)
    current_step := REPORT_STEPS.getD stepIndex ""
    completed_steps := REPORT_STEPS.take stepIndex
    remaining_steps := REPORT_STEPS.drop (stepIndex + 1) }

/-- Observable persisted effects of one worker run. -/
inductive WorkerEv where
  /-- an `updateJobProgress` write -/
  | progress (u : ProgressUpdate)
  /-- the call to `reconcileResearch` (the synthesis stage was reached) -/
  | reconcileCall
  /-- the `reports` insert, with the version number assigned -/
  | reportInsert (version : Nat)
  /-- the call to `generateAndStoreEmbeddings` -/
  | embedCall
  /-- the call to `entityManager.updateFromReport` -/
  | entityUpdate
  /-- the cache invalidation for the entity -/
  | cacheInvalidate
  /-- the catch-block `report_jobs` update to status `failed` -/
  | markFailed (msg : String)
deriving Repr, DecidableEq

/-- The placeholder substituted for a rejected agent:
`content: '[Agent failed — no results]', citations: [], searchTimeSec: 0,
model: 'failed', tokensUsed: 0`. -/
def agentPlaceholder : ResearchResult :=
  { content := "[Agent failed — no results]"
    citations := []
    searchTimeSec := 0
    model := "failed"
    tokensUsed := 0 }

/-- `generateAndStoreEmbeddings` (embeddingService): on any internal failure
it logs the error and rethrows it to its caller. -/
def generateAndStoreEmbeddings (outcome : Except String Unit) : Except String Unit :=
  match outcome with
  | .ok u => .ok u
  | .error e => .error e

/-- The environment of one worker run: every external outcome the control
flow depends on. -/
structure WorkerEnv where
  geminiOutcome : Except String ResearchResult
  perplexityOutcome : Except String ResearchResult
  openaiOutcome : Except String ResearchResult
  /-- `entity?.total_reports` from `findByLinkedInUrl` -/
  entityTotalReports : Option Nat
  reconcileCalls : Nat → Except String (String × Nat)
  elapsedSec : ℚ
  /-- outcome of the `reports` insert: the stored report id, or a DB error -/
  insertOutcome : Except String String
  /-- outcome of the embedding step's internal work -/
  embedOutcome : Except String Unit
  /-- outcome of `entityManager.updateFromReport` -/
  updateEntityOutcome : Except String Unit

/-- Result of one worker run: the persisted-effect trace and the job
outcome (the stored report id, or the thrown error). -/
structure WorkerRun where
  trace : List WorkerEv
  result : Except String String

/-- The catch block of the worker: one `report_jobs` update to `failed`
with the error message, then rethrow. -/
def failRun (t : List WorkerEv) (e : String) : WorkerRun :=
  ⟨t ++ [.markFailed e], .error e⟩

/-- Whether a settled outcome is fulfilled. -/
def fulfilled (o : Except String ResearchResult) : Bool :=
  match o with
  | .ok _ => true
  | .error _ => false

/-- The fulfilled value, or the failed-agent placeholder. -/
def orPlaceholder (o : Except String ResearchResult) : ResearchResult :=
  match o with
  | .ok v => v
  | .error _ => agentPlaceholder

/-- The number of fulfilled agents among the three settled outcomes. -/
def successCountW (env : WorkerEnv) : Nat :=
  ([env.geminiOutcome, env.perplexityOutcome, env.openaiOutcome].filter
    (fun r => fulfilled r)).length

/-- The research input handed to the reconciler, failed agents replaced by
the placeholder. -/
def substitutedResearch (env : WorkerEnv) : ResearchInput :=
  { gemini := orPlaceholder env.geminiOutcome
    perplexity := orPlaceholder env.perplexityOutcome
    openai := orPlaceholder env.openaiOutcome }

/-- The worker body: steps 0 and 1 are persisted, the three agents settle,
at least one fulfilled agent is required, failed agents are replaced by
placeholders, then reconcile (step 5), store (step 6), embed (step 7),
update entity (step 8) and finalize (step 9, status `completed`), with any
thrown error routed through the catch block. -/
def runWorker (env : WorkerEnv) : WorkerRun :=
  let t0 : List WorkerEv :=
    [.progress (mkProgressUpdate 0 .processing), .progress (mkProgressUpdate 1 .processing)]
  if successCountW env = 0 then
    failRun t0 "All 3 research agents failed. Cannot generate report."
  else
    let t1 := t0 ++ [.progress (mkProgressUpdate 5 .processing), .reconcileCall]
    match (reconcileResearch (substitutedResearch env) env.elapsedSec env.reconcileCalls).result with
    | .error e => failRun t1 e
    | .ok _report =>
      let t2 := t1 ++ [.progress (mkProgressUpdate 6 .processing)]
      match env.insertOutcome with
      | .error e => failRun t2 e
      | .ok reportId =>
        let version := env.entityTotalReports.getD 0 + 1
        let t3 := t2 ++ [.reportInsert version,
          .progress (mkProgressUpdate 7 .processing), .embedCall]
        match generateAndStoreEmbeddings env.embedOutcome with
        | .error e => failRun t3 e
        | .ok _ =>
          let t4 := t3 ++ [.progress (mkProgressUpdate 8 .processing), .entityUpdate]
          match env.updateEntityOutcome with
          | .error e => failRun t4 e
          | .ok _ =>
            let t5 := t4 ++ [.progress (mkProgressUpdate 9 .completed), .cacheInvalidate]
            ⟨t5, .ok reportId⟩

/-- The progress updates of a trace, in order. -/
def progressUpdates (t : List WorkerEv) : List ProgressUpdate :=
  t.filterMap fun ev =>
    match ev with
    | .progress u => some u
    | _ => none

/-! ### The entity manager (entityManager service)

Entity rows and JSONB canonical data are modelled directly; timestamps are
abstract instants passed in as `now`. -/

/-- The scrape payload (`LinkedInExtractedData`): `fullName` and
`profileUrl` are required strings, every other field is
`string | null | undefined` (or array-valued | undefined), modelled as a
runtime value defaulting to `undefined` when the scrape lacks it. -/
structure LinkedInExtractedData where
  fullName : String
  profileUrl : String
  headline : Json := Json.undef
  location : Json := Json.undef
  photoUrl : Json := Json.undef
  currentCompany : Json := Json.undef
  currentTitle : Json := Json.undef
  connectionCount : Json := Json.undef
  about : Json := Json.undef
  experiences : Json := Json.undef
  education : Json := Json.undef
  skills : Json := Json.undef
  certifications : Json := Json.undef
  languages : Json := Json.undef

/-- One row of the `entities` table (`EntityRecord`). -/
structure EntityRecord where
  id : String
  linkedin_url : String
  entity_type : String
  canonical_data : List (String × Json)
  last_scraped_at : Nat
  scraped_by_count : Nat
  total_reports : Nat
  latest_report_id : Option String
  latest_report_at : Option Nat
  created_at : Nat
  updated_at : Nat
  org_id : String

/-- One row inserted into `entity_versions`. -/
structure VersionInsert where
  change_source : String
  version_data : List (String × Json)
  report_id : Option String

/-- The object literal `canonicalData` built by `upsertFromScrape` from the
extracted fields: all thirteen keys are present, lacking scrape fields as
`undefined` values. -/
def canonicalDataOfScrape (d : LinkedInExtractedData) : List (String × Json) := [
  ("full_name", .str d.fullName),
  ("headline", d.headline),
  ("location", d.location),
  ("photo_url", d.photoUrl),
  ("current_company", d.currentCompany),
  ("current_title", d.currentTitle),
  ("connection_count", d.connectionCount),
  ("about", d.about),
  ("experiences", d.experiences),
  ("education", d.education),
  ("skills", d.skills),
  ("certifications", d.certifications),
  ("languages", d.languages)]

/-- The thirteen scrape-sourced canonical keys. -/
def scrapeKeys : List String := (canonicalDataOfScrape
  { fullName := "", profileUrl := "" }).map Prod.fst

/-- JavaScript object spread `{...a, ...b}`: the keys of `a` in order with
`b`'s value where `b` also has the key (an explicit `undefined` in `b`
overwrites), then the keys only in `b` in order. -/
def spreadMerge (a b : List (String × Json)) : List (String × Json) :=
  (a.map fun (k, v) => (k, (b.lookup k).getD v)) ++
    b.filter fun (k, _) => (a.lookup k).isNone

mutual

/-- JSON serialization of a runtime value as sent to the database:
`undefined` survives only inside arrays, where it serializes as null. -/
def jsonSerialize : Json → Json
  | .undef => .null
  | .arr xs => .arr (serializeList xs)
  | .obj fs => .obj (serializeFields fs)
  | j => j

/-- Serialization of array elements. -/
def serializeList : List Json → List Json
  | [] => []
  | x :: xs => jsonSerialize x :: serializeList xs

/-- Serialization of object fields: fields holding `undefined` are
dropped. -/
def serializeFields : List (String × Json) → List (String × Json)
  | [] => []
  | (k, v) :: fs =>
    match v with
    | .undef => serializeFields fs
    | w => (k, jsonSerialize w) :: serializeFields fs

end

/-- The merge of `upsertFromScrape` on an existing entity: spread the new
canonical data over the existing data, then restore `email` and `phone`
from the existing data when they are truthy there. -/
def upsertMergedData (existingData newData : List (String × Json)) : List (String × Json) :=
  let merged := spreadMerge existingData newData
  let merged :=
    if truthy (fget existingData "email") then setFObj merged "email" (fget existingData "email")
    else merged
  if truthy (fget existingData "phone") then setFObj merged "phone" (fget existingData "phone")
  else merged

/-- Result of `upsertFromScrape`: the written entity row and the
`entity_versions` rows inserted by the call. -/
structure ScrapeUpsertResult where
  entity : EntityRecord
  versionsInserted : List VersionInsert

/-- `entityManager.upsertFromScrape`. On an existing entity: write the
merged canonical data, bump `scraped_by_count`, touch the two timestamps —
and nothing else (no `entity_versions` insert appears in this code path).
On a new entity: insert with `scraped_by_count = 1` and `total_reports =
0`. -/
def upsertFromScrape (existing : Option EntityRecord) (linkedinUrl entityType : String)
    (d : LinkedInExtractedData) (orgId : String) (now : Nat) (newId : String) :
    ScrapeUpsertResult :=
  let canonicalData := canonicalDataOfScrape d
  match existing with
  | some e =>
    { entity := { e with
        canonical_data := serializeFields (upsertMergedData e.canonical_data canonicalData)
        last_scraped_at := now
        scraped_by_count := e.scraped_by_count + 1
        updated_at := now }
      versionsInserted := [] }
  | none =>
    { entity := {
        id := newId
        linkedin_url := linkedinUrl
        entity_type := entityType
        canonical_data := serializeFields canonicalData
        last_scraped_at := now
        scraped_by_count := 1
        total_reports := 0
        latest_report_id := none
        latest_report_at := none
        created_at := now
        updated_at := now
        org_id := orgId }
      versionsInserted := [] }

/-- `entityManager.updateFromReport`: merge the report facts over canonical
data, set the latest-report pointers, bump `total_reports`, and insert one
`entity_versions` row tagged `report`. -/
def updateFromReport (existing : EntityRecord) (reportId : String)
    (reportData : List (String × Json)) (now : Nat) :
    EntityRecord × List VersionInsert :=
  let merged := spreadMerge existing.canonical_data reportData
  ({ existing with
      canonical_data := serializeFields merged
      latest_report_id := some reportId
      latest_report_at := some now
      total_reports := existing.total_reports + 1
      updated_at := now },
   [{ change_source := "report"
      version_data := serializeFields merged
      report_id := some reportId }])

/-! ### The dossier compiler (webResearchService.ts) -/

/-- One discovered source (`SearchResult`). -/
structure SearchResult where
  title : String
  url : String
  content : String
  snippet : Option String := none
deriving Repr, DecidableEq, Inhabited

/-- One step of the source-collection loop of `conductResearch`: a result is
added only when its URL is new and its content is longer than 100
characters. -/
def addSource (m : List (String × SearchResult)) (r : SearchResult) :
    List (String × SearchResult) :=
  if (m.lookup r.url).isNone ∧ 100 < r.content.length then m ++ [(r.url, r)] else m

/-- `Map.set`: replace the value in place if the key exists, else append. -/
def mapSet (m : List (String × SearchResult)) (k : String) (v : SearchResult) :
    List (String × SearchResult) :=
  if (m.lookup k).isSome then
    m.map fun (k2, w) => if k2 = k then (k2, v) else (k2, w)
  else m ++ [(k, v)]

/-- The URL-keyed source map built by `conductResearch` from the per-query
search results (all batches, in order) and the LinkedIn-profile read:
deduplicate by URL with the length filter, then add the profile page when
its read content (truncated to 15000 characters by `jinaRead`) is longer
than 200 characters. -/
def conductSourceMap (name linkedinUrl : String)
    (batchResults : List (List SearchResult)) (linkedinRead : String) :
    List (String × SearchResult) :=
  let m := batchResults.flatten.foldl addSource []
  if linkedinUrl ≠ "" then
    let linkedinContent := linkedinRead.take 15000
    if linkedinContent ≠ "" ∧ 200 < linkedinContent.length then
      mapSet m linkedinUrl
        { title := "LinkedIn Profile - " ++ name
          url := linkedinUrl
          content := linkedinContent }
    else m
  else m

/-- The source list of the compiled dossier: the values of the source map
in insertion order (`Array.from(allSources.values())`). -/
def conductResearchSources (name linkedinUrl : String)
    (batchResults : List (List SearchResult)) (linkedinRead : String) :
    List SearchResult :=
  (conductSourceMap name linkedinUrl batchResults linkedinRead).map fun p => p.2

/-- The compiled dossier (`ResearchDossier`), as consumed by the
formatter. -/
structure ResearchDossier where
  name : String
  company : String
  title : String
  location : String
  linkedinUrl : String
  searchQueries : List String
  sources : List SearchResult
deriving Repr, Inhabited

/-- The 63-character heavy rule of the dossier header. -/
def boxLine : String := String.mk (List.replicate 63 '═')

/-- The 40-character light rule of a source block. -/
def dashLine : String := String.mk (List.replicate 40 '─')

/-- The dossier header text. -/
def dossierHeader (d : ResearchDossier) : String :=
  "WEB RESEARCH DOSSIER FOR: " ++ d.name ++
  "\nCompany: " ++ d.company ++
  "\nTitle: " ++ d.title ++
  "\nLocation: " ++ d.location ++
  "\nLinkedIn: " ++ d.linkedinUrl ++
  "\nSources Found: " ++ toString d.sources.length ++
  "\nSearch Queries Used: " ++ toString d.searchQueries.length ++
  "\n\n" ++ boxLine ++
  "\nSOURCE MATERIALS (" ++ toString d.sources.length ++ " sources)\n" ++
  boxLine ++ "\n\n"

/-- One formatted source block: the content is capped at 5000 characters
with an explicit truncation marker. -/
def sourceBlock (i : Nat) (s : SearchResult) : String :=
  let truncatedContent :=
    if 5000 < s.content.length then s.content.take 5000 ++ "\n[... content truncated ...]"
    else s.content
  "\n" ++ dashLine ++ "\nSOURCE " ++ toString (i + 1) ++ ": " ++ s.title ++
  "\nURL: " ++ s.url ++ "\n" ++ dashLine ++ "\n" ++ truncatedContent ++ "\n\n"

/-- The aggregate-cap summary marker appended in place of the sources from
index `i` on. -/
def truncationSummary (total i : Nat) : String :=
  "\n[... " ++ toString (total - i) ++ " additional sources truncated for token limit ...]"

/-- The formatting loop of `formatDossierForLLM`: append blocks while the
running character count stays within the aggregate cap; at the first block
that would exceed it, stop and append the summary marker instead. -/
def formatLoop (sources : List SearchResult) (total i charCount maxChars : Nat) : String :=
  match sources with
  | [] => ""
  | s :: rest =>
    let block := sourceBlock i s
    if maxChars < charCount + block.length then truncationSummary total i
    else block ++ formatLoop rest total (i + 1) (charCount + block.length) maxChars

/-- `formatDossierForLLM` (default aggregate cap 200000 characters). -/
def formatDossierForLLM (d : ResearchDossier) (maxChars : Nat := 200000) : String :=
  let output := dossierHeader d
  output ++ formatLoop d.sources d.sources.length 0 output.length maxChars

/-- The blocks of the first sources of a list, numbered from `i`. -/
def blockList : List SearchResult → Nat → List String
  | [], _ => []
  | s :: rest, i => sourceBlock i s :: blockList rest (i + 1)

/-- Every listed block fits when appended in turn to a running character
count bounded by `maxChars`. -/
def admissible (charCount maxChars : Nat) : List String → Prop
  | [] => True
  | b :: bs => charCount + b.length ≤ maxChars ∧ admissible (charCount + b.length) maxChars bs

/-! ### Observation helpers and concrete test vectors -/

mutual

/-- Whether a runtime value contains a JSON null anywhere. -/
def hasNull : Json → Bool
  | .null => true
  | .arr xs => hasNullL xs
  | .obj fs => hasNullF fs
  | _ => false

/-- `hasNull` over array elements. -/
def hasNullL : List Json → Bool
  | [] => false
  | x :: xs => hasNull x || hasNullL xs

/-- `hasNull` over object field values. -/
def hasNullF : List (String × Json) → Bool
  | [] => false
  | (_, v) :: fs => hasNull v || hasNullF fs

end

/-- A synthesis response that wraps its JSON document in a fenced code
block. -/
def fencedResponse : String :=
  "Here is the reconciled report:\n```json\n\x7b\"a\": 1\x7d\n```\nLet me know if you need more."

/-- A synthesis response with leading and trailing prose around the JSON
document. -/
def proseResponse : String :=
  "The final report follows. \x7b\"a\": 1\x7d Hope this helps."

/-- A synthesis response truncated inside a string literal, with one
unclosed brace. -/
def danglingResponse : String := "\x7b\"summary\": \"hel"

/-! ## Helper lemmas -/

set_option maxRecDepth 10000

theorem lookup_cons_self {β : Type} (k : String) (v : β) (fs : List (String × β)) :
    ((k, v) :: fs).lookup k = some v := by
  simp [List.lookup]

theorem lookup_cons_ne {β : Type} {k k2 : String} (v : β) (fs : List (String × β))
    (h : k ≠ k2) : ((k2, v) :: fs).lookup k = fs.lookup k := by
  have hb : (k == k2) = false := beq_eq_false_iff_ne.mpr h
  simp [List.lookup, hb]

theorem lookup_append {β : Type} (xs ys : List (String × β)) (k : String) :
    (xs ++ ys).lookup k =
      (match xs.lookup k with | some v => some v | none => ys.lookup k) := by
  induction xs with
  | nil => simp [List.lookup]
  | cons p xs ih =>
    obtain ⟨k2, w⟩ := p
    by_cases h : k = k2
    · subst h; rw [List.cons_append, lookup_cons_self, lookup_cons_self]
    · rw [List.cons_append, lookup_cons_ne w _ h, lookup_cons_ne w _ h, ih]

/-- The map branch of `setFObj` rewrites every binding of `k` to `v`. -/
theorem lookup_setFObj_map (fs : List (String × Json)) (k : String) (v : Json) :
    (fs.map fun (p : String × Json) => if p.1 = k then (p.1, v) else (p.1, p.2)).lookup k =
      (fs.lookup k).map fun _ => v := by
  induction fs with
  | nil => simp [List.lookup]
  | cons p fs ih =>
    obtain ⟨k2, w⟩ := p
    by_cases h : k = k2
    · subst h
      rw [List.map_cons]
      rw [show ((if ((k : String), (w : Json)).1 = k then (((k : String), (w : Json)).1, v)
        else (((k : String), (w : Json)).1, ((k : String), (w : Json)).2)) = (k, v)) from if_pos rfl]
      rw [lookup_cons_self, lookup_cons_self]
      rfl
    · rw [List.map_cons]
      rw [show ((if ((k2 : String), (w : Json)).1 = k then (((k2 : String), (w : Json)).1, v)
        else (((k2 : String), (w : Json)).1, ((k2 : String), (w : Json)).2)) = (k2, w)) from
        if_neg (Ne.symm h)]
      rw [lookup_cons_ne _ _ h, lookup_cons_ne _ _ h, ih]

/-- The map branch of `setFObj` leaves other keys untouched. -/
theorem lookup_setFObj_map_ne (fs : List (String × Json)) (k k2 : String) (v : Json)
    (h : k2 ≠ k) :
    (fs.map fun (p : String × Json) => if p.1 = k then (p.1, v) else (p.1, p.2)).lookup k2 =
      fs.lookup k2 := by
  induction fs with
  | nil => simp [List.lookup]
  | cons p fs ih =>
    obtain ⟨k3, w⟩ := p
    rw [List.map_cons]
    by_cases hk : k3 = k
    · subst hk
      rw [show ((if ((k3 : String), (w : Json)).1 = k3 then (((k3 : String), (w : Json)).1, v)
        else (((k3 : String), (w : Json)).1, ((k3 : String), (w : Json)).2)) = (k3, v)) from
        if_pos rfl]
      rw [lookup_cons_ne _ _ h, lookup_cons_ne _ _ h, ih]
    · rw [show ((if ((k3 : String), (w : Json)).1 = k then (((k3 : String), (w : Json)).1, v)
        else (((k3 : String), (w : Json)).1, ((k3 : String), (w : Json)).2)) = (k3, w)) from
        if_neg hk]
      by_cases hk2 : k2 = k3
      · subst hk2; rw [lookup_cons_self, lookup_cons_self]
      · rw [lookup_cons_ne _ _ hk2, lookup_cons_ne _ _ hk2, ih]

theorem lookup_setFObj_self (fs : List (String × Json)) (k : String) (v : Json) :
    (setFObj fs k v).lookup k = some v := by
  unfold setFObj
  by_cases h : (fs.lookup k).isSome
  · rw [if_pos h, lookup_setFObj_map]
    cases hh : fs.lookup k with
    | some w => rfl
    | none => rw [hh] at h; simp at h
  · rw [if_neg h, lookup_append]
    cases hh : fs.lookup k with
    | some w => rw [hh] at h; simp at h
    | none => exact lookup_cons_self k v []

theorem lookup_setFObj_ne (fs : List (String × Json)) (k k2 : String) (v : Json)
    (h : k2 ≠ k) : (setFObj fs k v).lookup k2 = fs.lookup k2 := by
  unfold setFObj
  by_cases hs : (fs.lookup k).isSome
  · rw [if_pos hs]
    exact lookup_setFObj_map_ne fs k k2 v h
  · rw [if_neg hs, lookup_append]
    cases hh : fs.lookup k2 with
    | some w => rfl
    | none => rw [lookup_cons_ne _ _ h]; rfl

mutual

theorem hasNull_stripNulls : (j : Json) → hasNull (stripNulls j) = false
  | .null => rfl
  | .undef => rfl
  | .bool _ => rfl
  | .num _ => rfl
  | .str _ => rfl
  | .arr xs => hasNullL_stripNullsList xs
  | .obj fs => hasNullF_stripNullsFields fs

theorem hasNullL_stripNullsList : (xs : List Json) → hasNullL (stripNullsList xs) = false
  | [] => rfl
  | x :: xs => by
    show (hasNull (stripNulls x) || hasNullL (stripNullsList xs)) = false
    rw [hasNull_stripNulls x, hasNullL_stripNullsList xs]
    rfl

theorem hasNullF_stripNullsFields :
    (fs : List (String × Json)) → hasNullF (stripNullsFields fs) = false
  | [] => rfl
  | (k, v) :: fs => by
    have hv := hasNull_stripNulls v
    have hf := hasNullF_stripNullsFields fs
    simp only [stripNullsFields]
    cases h : stripNulls v with
    | undef => exact hf
    | null => rw [h] at hv; simp [hasNull] at hv
    | bool b => simpa [hasNullF, hasNull] using hf
    | num q => simpa [hasNullF, hasNull] using hf
    | str s => simpa [hasNullF, hasNull] using hf
    | arr xs => rw [h] at hv; simp [hasNullF, hasNull] at hv ⊢; exact ⟨hv, hf⟩
    | obj gs => rw [h] at hv; simp [hasNullF, hasNull] at hv ⊢; exact ⟨hv, hf⟩

end

/-! ## The claims -/

/-- C2. The staged parse of a synthesis response recovers a document from a
fenced code block, from prose-wrapped JSON, and from a response truncated
inside a string literal with one unclosed brace; the normalizer strips
nulls recursively, and the default-filling pass turns a missing
`identity_markers` into `[]`, a missing `identity_confidence` into
`likely`, a missing `identity_notes` into the empty string, and a missing
subsection `confidence_level` into `confirmed` (with the missing
`confidence_note` becoming the empty string). -/
theorem c2_parse_repair_and_defaults :
    parseStaged fencedResponse = some (.obj [("a", .num 1)]) ∧
    parseStaged proseResponse = some (.obj [("a", .num 1)]) ∧
    parseStaged danglingResponse = some (.obj [("summary", .str "hel")]) ∧
    (∀ j : Json, hasNull (stripNulls j) = false) ∧
    (∀ sfs : List (String × Json), sfs.lookup "identity_markers" = none →
      applyDefaults (.obj [("subject", .obj sfs)]) =
        .ok (.obj [("subject", .obj (setFObj sfs "identity_markers" (.arr [])))]) ∧
      (setFObj sfs "identity_markers" (.arr [])).lookup "identity_markers" =
        some (.arr [])) ∧
    (∀ afs : List (String × Json),
      afs.lookup "identity_confidence" = none → afs.lookup "identity_notes" = none →
      applyDefaults (.obj [("abstract", .obj afs)]) =
        .ok (.obj [("abstract", .obj (setFObj
          (setFObj afs "identity_confidence" (.str "likely")) "identity_notes" (.str "")))]) ∧
      (setFObj (setFObj afs "identity_confidence" (.str "likely")) "identity_notes"
        (.str "")).lookup "identity_confidence" = some (.str "likely") ∧
      (setFObj (setFObj afs "identity_confidence" (.str "likely")) "identity_notes"
        (.str "")).lookup "identity_notes" = some (.str "")) ∧
    (∀ sub : List (String × Json),
      sub.lookup "confidence_level" = none → sub.lookup "confidence_note" = none →
      applySubDefaults (.obj sub) =
        .ok (.obj (setFObj
          (setFObj sub "confidence_level" (.str "confirmed")) "confidence_note" (.str ""))) ∧
      (setFObj (setFObj sub "confidence_level" (.str "confirmed")) "confidence_note"
        (.str "")).lookup "confidence_level" = some (.str "confirmed")) := by
  refine ⟨rfl, rfl, rfl, hasNull_stripNulls, ?_, ?_, ?_⟩
  · intro sfs h
    constructor
    · simp [applyDefaults, getFieldE, setFieldE, setF, truthy, h, List.lookup, setFObj,
        Bind.bind, Except.bind, Pure.pure, Except.pure]
    · exact lookup_setFObj_self sfs "identity_markers" (.arr [])
  · intro afs h1 h2
    have h2b : (setFObj afs "identity_confidence" (.str "likely")).lookup "identity_notes" =
        none := by
      rw [lookup_setFObj_ne afs "identity_confidence" "identity_notes" _ (by decide)]
      exact h2
    refine ⟨?_, ?_, lookup_setFObj_self _ "identity_notes" (.str "")⟩
    · simp [applyDefaults, getFieldE, setFieldE, setF, truthy, h1, h2b, List.lookup,
        Bind.bind, Except.bind, Pure.pure, Except.pure]
      simp [setFObj, List.lookup]
    · rw [lookup_setFObj_ne _ "identity_notes" "identity_confidence" _ (by decide)]
      exact lookup_setFObj_self afs "identity_confidence" (.str "likely")
  · intro sub h1 h2
    have h2b : (setFObj sub "confidence_level" (.str "confirmed")).lookup "confidence_note" =
        none := by
      rw [lookup_setFObj_ne sub "confidence_level" "confidence_note" _ (by decide)]
      exact h2
    constructor
    · simp [applySubDefaults, getFieldE, setFieldE, truthy, h1, h2b,
        Bind.bind, Except.bind, Pure.pure, Except.pure]
    · rw [lookup_setFObj_ne _ "confidence_note" "confidence_level" _ (by decide)]
      exact lookup_setFObj_self sub "confidence_level" (.str "confirmed")

/-- C2, witness: the default-filling conclusions evaluated at concrete
empty blocks. -/
theorem c2_parse_repair_and_defaults_witness :
    applyDefaults (.obj [("subject", .obj [("x", .num 1)])]) =
      .ok (.obj [("subject", .obj [("x", .num 1), ("identity_markers", .arr [])])]) ∧
    applyDefaults (.obj [("abstract", .obj [])]) =
      .ok (.obj [("abstract",
        .obj [("identity_confidence", .str "likely"), ("identity_notes", .str "")])]) ∧
    applySubDefaults (.obj []) =
      .ok (.obj [("confidence_level", .str "confirmed"), ("confidence_note", .str "")]) := by
  obtain ⟨-, -, -, -, h5, h6, h7⟩ := c2_parse_repair_and_defaults
  refine ⟨?_, ?_, ?_⟩
  · have := (h5 [("x", .num 1)] rfl).1
    simpa [setFObj, List.lookup] using this
  · have := (h6 [] rfl rfl).1
    simpa [setFObj, List.lookup] using this
  · have := (h7 [] rfl rfl).1
    simpa [setFObj, List.lookup] using this

/-- C3. The reconciliation retry policy: at most 3 attempts; the waits
between attempts are 10 then 20 seconds (attempt number times 10 seconds);
an attempt whose output parses but fails schema validation counts as a
failed attempt (the loop retries past it); and when all three attempts
fail, the third error propagates to the caller with no report. -/
theorem c3_retry_policy (r : ResearchInput) (e : ℚ)
    (calls : Nat → Except String (String × Nat)) :
    (reconcileResearch r e calls).attemptsMade ≤ 3 ∧
    (reconcileResearch r e calls).delays =
      (List.range ((reconcileResearch r e calls).attemptsMade - 1)).map
        (fun n => (n + 1) * 10000) ∧
    (∀ text tok p q err, calls 1 = .ok (text, tok) → parseStaged text = some p →
      applyDefaults (stripNulls p) = .ok q → validateReport q = .error err →
      2 ≤ (reconcileResearch r e calls).attemptsMade) ∧
    (∀ e1 e2 e3, runAttempt r e (calls 1) = .error e1 →
      runAttempt r e (calls 2) = .error e2 →
      runAttempt r e (calls 3) = .error e3 →
      (reconcileResearch r e calls).attemptsMade = 3 ∧
      (reconcileResearch r e calls).delays = [10000, 20000] ∧
      (reconcileResearch r e calls).result = .error e3) := by
  have key : ∀ res : ReconcileRun, res = reconcileResearch r e calls →
      (res.attemptsMade ≤ 3 ∧ res.delays =
        (List.range (res.attemptsMade - 1)).map (fun n => (n + 1) * 10000)) := by
    intro res hres
    rw [hres]
    show _ ∧ _
    unfold reconcileResearch
    rw [show (3 : Nat) = 2 + 1 from rfl]
    rw [reconcileGo]
    cases h1 : runAttempt r e (calls 1) with
    | ok rep => exact ⟨by norm_num, by norm_num⟩
    | error e1 =>
      simp only [reduceIte, show ¬(3 ≤ 1) by decide]
      rw [show (2 : Nat) = 1 + 1 from rfl, reconcileGo]
      cases h2 : runAttempt r e (calls 2) with
      | ok rep => exact ⟨by norm_num, by norm_num [List.range_succ]⟩
      | error e2 =>
        simp only [reduceIte, show ¬(3 ≤ 2) by decide]
        rw [show (1 : Nat) = 0 + 1 from rfl, reconcileGo]
        cases h3 : runAttempt r e (calls 3) with
        | ok rep => exact ⟨by norm_num, by norm_num [List.range_succ]⟩
        | error e3 =>
          simp only [show (3 ≤ 3) from le_refl 3, if_true]
          exact ⟨by norm_num, by norm_num [List.range_succ]⟩
  refine ⟨(key _ rfl).1, (key _ rfl).2, ?_, ?_⟩
  · intro text tok p q err hcall hparse hdef hval
    have h1 : runAttempt r e (calls 1) = .error err := by
      rw [hcall]
      simp [runAttempt, hparse, hdef, hval, Bind.bind, Except.bind, Pure.pure, Except.pure]
    unfold reconcileResearch
    rw [show (3 : Nat) = 2 + 1 from rfl, reconcileGo, h1]
    simp only [reduceIte, show ¬(3 ≤ 1) by decide]
    rw [show (2 : Nat) = 1 + 1 from rfl, reconcileGo]
    cases h2 : runAttempt r e (calls 2) with
    | ok rep => norm_num
    | error e2 =>
      simp only [reduceIte, show ¬(3 ≤ 2) by decide]
      rw [show (1 : Nat) = 0 + 1 from rfl, reconcileGo]
      cases h3 : runAttempt r e (calls 3) with
      | ok rep => norm_num
      | error e3 => simp only [show (3 ≤ 3) from le_refl 3, if_true]; norm_num
  · intro e1 e2 e3 h1 h2 h3
    unfold reconcileResearch
    rw [show (3 : Nat) = 2 + 1 from rfl, reconcileGo, h1]
    simp only [reduceIte, show ¬(3 ≤ 1) by decide]
    rw [show (2 : Nat) = 1 + 1 from rfl, reconcileGo, h2]
    simp only [reduceIte, show ¬(3 ≤ 2) by decide]
    rw [show (1 : Nat) = 0 + 1 from rfl, reconcileGo, h3]
    exact ⟨rfl, rfl, rfl⟩

/-- C3, witness: a call oracle that always throws exhausts the three
attempts, waits 10 then 20 seconds, and propagates the final error. -/
theorem c3_retry_policy_witness :
    (reconcileResearch ⟨agentPlaceholder, agentPlaceholder, agentPlaceholder⟩ 0
      (fun _ => .error "boom")).attemptsMade = 3 ∧
    (reconcileResearch ⟨agentPlaceholder, agentPlaceholder, agentPlaceholder⟩ 0
      (fun _ => .error "boom")).delays = [10000, 20000] ∧
    (reconcileResearch ⟨agentPlaceholder, agentPlaceholder, agentPlaceholder⟩ 0
      (fun _ => .error "boom")).result = .error "boom" :=
  (c3_retry_policy ⟨agentPlaceholder, agentPlaceholder, agentPlaceholder⟩ 0
    (fun _ => .error "boom")).2.2.2 "boom" "boom" "boom" rfl rfl rfl

/-- Structure of a successful attempt: the metadata stamped over the
validated report comes from the council computation, whatever the model
returned. -/
theorem runAttempt_ok_structure (r : ResearchInput) (e : ℚ)
    (cr : Except String (String × Nat)) (rep : GeneratedReport)
    (h : runAttempt r e cr = .ok rep) :
    rep.metadata.ai_model = councilLabel ∧
    rep.metadata.sources_analyzed = ((totalCitationsOf r).length : ℚ) ∧
    rep.metadata.generation_time_seconds = e ∧
    ∃ text ct, cr = .ok (text, ct) ∧
      rep.metadata.total_tokens = (totalResearchTokensOf r ct : ℚ) := by
  cases cr with
  | error err => simp [runAttempt, Bind.bind, Except.bind] at h
  | ok tc =>
    obtain ⟨text, ct⟩ := tc
    cases hp : parseStaged text with
    | none => simp [runAttempt, Bind.bind, Except.bind, hp] at h
    | some p =>
      cases hd : applyDefaults (stripNulls p) with
      | error err =>
        simp [runAttempt, Bind.bind, Except.bind, hp, hd, Pure.pure, Except.pure] at h
      | ok q =>
        cases hv : validateReport q with
        | error err =>
          simp [runAttempt, Bind.bind, Except.bind, hp, hd, hv, Pure.pure, Except.pure] at h
        | ok validated =>
          simp only [runAttempt, Bind.bind, Except.bind, hp, hd, hv, Pure.pure, Except.pure,
            Except.ok.injEq] at h
          subst h
          refine ⟨rfl, rfl, rfl, text, ct, rfl, rfl⟩

/-- A successful retry loop owes its report to a successful attempt. -/
theorem reconcileGo_ok_attempt (r : ResearchInput) (e : ℚ)
    (calls : Nat → Except String (String × Nat)) :
    ∀ fuel a delays rep, (reconcileGo r e calls a fuel delays).result = .ok rep →
      ∃ n, runAttempt r e (calls n) = .ok rep := by
  intro fuel
  induction fuel with
  | zero => intro a delays rep h; simp [reconcileGo] at h
  | succ fuel ih =>
    intro a delays rep h
    rw [reconcileGo] at h
    cases h1 : runAttempt r e (calls a) with
    | ok rep2 => rw [h1] at h; simp at h; exact ⟨a, by rw [h1, h]⟩
    | error err =>
      rw [h1] at h
      by_cases ha : 3 ≤ a
      · simp [if_pos ha] at h
      · simp only [if_neg ha] at h
        exact ih _ _ _ h

/-- C4. Every successful reconciliation stamps `metadata.sources_analyzed`
with the size of the deduplicated union of the three agents citation lists,
`metadata.total_tokens` with the three agents token counts plus the
reconciliation call tokens, and `metadata.ai_model` with the composite
council label; with the worker placeholders, a lone succeeding agent
contributes exactly its own distinct citations. -/
theorem c4_metadata_stamping (r : ResearchInput) (e : ℚ)
    (calls : Nat → Except String (String × Nat)) (rep : GeneratedReport)
    (h : (reconcileResearch r e calls).result = .ok rep) :
    rep.metadata.ai_model = councilLabel ∧
    rep.metadata.sources_analyzed = ((totalCitationsOf r).length : ℚ) ∧
    (∃ text ct, (∃ n, calls n = .ok (text, ct)) ∧
      rep.metadata.total_tokens = (totalResearchTokensOf r ct : ℚ)) ∧
    (∀ g, totalCitationsOf ⟨g, agentPlaceholder, agentPlaceholder⟩ = g.citations.eraseDups) ∧
    (∀ p, totalCitationsOf ⟨agentPlaceholder, p, agentPlaceholder⟩ = p.citations.eraseDups) ∧
    (∀ o, totalCitationsOf ⟨agentPlaceholder, agentPlaceholder, o⟩ = o.citations.eraseDups) := by
  obtain ⟨n, hn⟩ := reconcileGo_ok_attempt r e calls 3 1 [] rep h
  obtain ⟨h1, h2, h3, text, ct, hcr, h4⟩ := runAttempt_ok_structure r e (calls n) rep hn
  exact ⟨h1, h2, ⟨text, ct, ⟨n, hcr⟩, h4⟩,
    fun g => by simp [totalCitationsOf, agentPlaceholder],
    fun p => by simp [totalCitationsOf, agentPlaceholder],
    fun o => by simp [totalCitationsOf, agentPlaceholder]⟩

/-- A schema-valid synthesis response used by the concrete witnesses. -/
def validText : String :=
  "\x7b\"subject\":\x7b\"entity_type\":\"person\",\"full_name\":\"A\"\x7d,\"abstract\":\x7b\"summary\":\"s\",\"key_findings\":[],\"relevance_score\":50,\"relevance_notes\":\"\"\x7d,\"sections\":[],\"bibliography\":\x7b\"total_sources\":0,\"sources_by_type\":\x7b\x7d,\"all_sources\":[]\x7d,\"metadata\":\x7b\"generation_time_seconds\":0,\"ai_model\":\"m\",\"total_tokens\":0,\"sources_analyzed\":0,\"quality_score\":0,\"completeness_score\":0,\"confidence_scores\":\x7b\x7d\x7d\x7d"

/-- A concrete three-agent research input used by the witnesses. -/
def researchW : ResearchInput where
  gemini :=
    { content := "g"
      citations := ["https://a.example", "https://b.example"]
      searchTimeSec := 1
      model := "gem"
      tokensUsed := 10 }
  perplexity :=
    { content := "p"
      citations := ["https://a.example"]
      searchTimeSec := 2
      model := "pplx"
      tokensUsed := 20 }
  openai :=
    { content := "o"
      citations := []
      searchTimeSec := 3
      model := "oai"
      tokensUsed := 30 }

/-- C4, witness: the stamped metadata of a concrete successful run. -/
theorem c4_metadata_stamping_witness :
    ∃ rep, (reconcileResearch researchW 0 (fun _ => .ok (validText, 7))).result = .ok rep ∧
      rep.metadata.ai_model = councilLabel ∧
      rep.metadata.sources_analyzed = ((totalCitationsOf researchW).length : ℚ) := by
  obtain ⟨h1, h2, -, -⟩ :=
    c4_metadata_stamping researchW 0 (fun _ => .ok (validText, 7)) _ rfl
  exact ⟨_, rfl, h1, h2⟩

/-- The rounded progress written for step `i` is `(i + 1) * 10` percent. -/
theorem mkProgressUpdate_progress (i : Nat) (s : JobStatus) :
    (mkProgressUpdate i s).progress = ((i : ℤ) + 1) * 10 := by
  unfold mkProgressUpdate
  have hlen : ((REPORT_STEPS.length : ℚ)) = 10 := by norm_num [REPORT_STEPS]
  rw [hlen]
  have harith : (((i : Nat) + 1 : ℚ)) / 10 * 100 = ((((i : ℤ) + 1) * 10 : ℤ) : ℚ) := by
    push_cast
    ring
  rw [harith, round_intCast]

/-- C1. The worker awaits all three agents to settlement: when all three
reject it throws before reconciliation and before any report insert, the
job is marked failed and no report row is created; when at least one
fulfills the run reaches the reconciliation stage, and when the downstream
stages succeed the job completes. -/
theorem c1_all_settled_partial_failure (env : WorkerEnv) :
    ((fulfilled env.geminiOutcome = false ∧ fulfilled env.perplexityOutcome = false ∧
        fulfilled env.openaiOutcome = false) →
      (runWorker env).result =
        .error "All 3 research agents failed. Cannot generate report." ∧
      (∀ v, WorkerEv.reportInsert v ∉ (runWorker env).trace) ∧
      WorkerEv.reconcileCall ∉ (runWorker env).trace ∧
      WorkerEv.markFailed "All 3 research agents failed. Cannot generate report." ∈
        (runWorker env).trace) ∧
    (successCountW env ≠ 0 → WorkerEv.reconcileCall ∈ (runWorker env).trace) ∧
    (∀ rep rid, successCountW env ≠ 0 →
      (reconcileResearch (substitutedResearch env) env.elapsedSec
        env.reconcileCalls).result = .ok rep →
      env.insertOutcome = .ok rid → env.embedOutcome = .ok () →
      env.updateEntityOutcome = .ok () →
      (runWorker env).result = .ok rid ∧
      (progressUpdates (runWorker env).trace).getLast? =
        some (mkProgressUpdate 9 .completed)) := by
  refine ⟨?_, ?_, ?_⟩
  · rintro ⟨hg, hp, ho⟩
    have hsc : successCountW env = 0 := by
      simp [successCountW, List.filter, hg, hp, ho]
    simp [runWorker, hsc, failRun]
  · intro hsc
    simp only [runWorker, if_neg hsc]
    cases (reconcileResearch (substitutedResearch env) env.elapsedSec
        env.reconcileCalls).result with
    | error e => simp [failRun]
    | ok rep =>
      cases env.insertOutcome with
      | error e => simp [failRun]
      | ok rid =>
        cases generateAndStoreEmbeddings env.embedOutcome with
        | error e => simp [failRun]
        | ok u =>
          cases env.updateEntityOutcome with
          | error e => simp [failRun]
          | ok u2 => simp
  · intro rep rid hsc hr hi he hu
    refine ⟨?_, ?_⟩ <;>
      simp [runWorker, if_neg hsc, hr, hi, he, hu, generateAndStoreEmbeddings, progressUpdates]

/-- A run environment in which all three agents reject. -/
def envAllFail : WorkerEnv where
  geminiOutcome := .error "g down"
  perplexityOutcome := .error "p down"
  openaiOutcome := .error "o down"
  entityTotalReports := some 0
  reconcileCalls := fun _ => .ok (validText, 7)
  elapsedSec := 0
  insertOutcome := .ok "r1"
  embedOutcome := .ok ()
  updateEntityOutcome := .ok ()

/-- A run environment in which only the gemini agent fulfills and every
downstream stage succeeds. -/
def envOneOk : WorkerEnv where
  geminiOutcome := .ok researchW.gemini
  perplexityOutcome := .error "p down"
  openaiOutcome := .error "o down"
  entityTotalReports := some 0
  reconcileCalls := fun _ => .ok (validText, 7)
  elapsedSec := 0
  insertOutcome := .ok "r1"
  embedOutcome := .ok ()
  updateEntityOutcome := .ok ()

/-- C1, witness: a run with all three agents rejected is marked failed with
no report insert, and a run with one fulfilled agent and successful
downstream stages completes. -/
theorem c1_all_settled_partial_failure_witness :
    (runWorker envAllFail).result =
      .error "All 3 research agents failed. Cannot generate report." ∧
    (runWorker envOneOk).result = .ok "r1" := by
  constructor
  · exact ((c1_all_settled_partial_failure envAllFail).1 ⟨rfl, rfl, rfl⟩).1
  · exact ((c1_all_settled_partial_failure envOneOk).2.2 _ "r1" (by decide)
      rfl rfl rfl rfl).1

/-- A fully successful run environment: all three agents fulfill and every
downstream stage succeeds. -/
def envOk : WorkerEnv where
  geminiOutcome := .ok researchW.gemini
  perplexityOutcome := .ok researchW.perplexity
  openaiOutcome := .ok researchW.openai
  entityTotalReports := some 0
  reconcileCalls := fun _ => .ok (validText, 7)
  elapsedSec := 42
  insertOutcome := .ok "report-1"
  embedOutcome := .ok ()
  updateEntityOutcome := .ok ()

/-- C5, amended. During a successful run the persisted current step takes
the seven labels with indices 0, 1, 5, 6, 7, 8, 9 in order (the three
per-agent labels are skipped); every persisted transition has
progress `(stepIndex + 1) * 10` (the rounding of
`(stepIndex + 1) / 10 * 100`), `completed_steps` exactly the labels before
the current one and `remaining_steps` exactly the labels after it; the
persisted progress sequence `10, 20, 60, 70, 80, 90, 100` is non-decreasing
and ends at 100 with status `completed`. -/
theorem c5_progress_steps (env : WorkerEnv) (rep : GeneratedReport) (rid : String)
    (hsc : successCountW env ≠ 0)
    (hr : (reconcileResearch (substitutedResearch env) env.elapsedSec
      env.reconcileCalls).result = .ok rep)
    (hi : env.insertOutcome = .ok rid) (he : env.embedOutcome = .ok ())
    (hu : env.updateEntityOutcome = .ok ()) :
    progressUpdates (runWorker env).trace =
      [mkProgressUpdate 0 .processing, mkProgressUpdate 1 .processing,
       mkProgressUpdate 5 .processing, mkProgressUpdate 6 .processing,
       mkProgressUpdate 7 .processing, mkProgressUpdate 8 .processing,
       mkProgressUpdate 9 .completed] ∧
    (progressUpdates (runWorker env).trace).map (fun u => u.progress) =
      [10, 20, 60, 70, 80, 90, 100] ∧
    (∀ u ∈ progressUpdates (runWorker env).trace,
      u.progress = ((u.stepIndex : ℤ) + 1) * 10 ∧
      u.current_step = REPORT_STEPS.getD u.stepIndex "" ∧
      u.completed_steps = REPORT_STEPS.take u.stepIndex ∧
      u.remaining_steps = REPORT_STEPS.drop (u.stepIndex + 1)) ∧
    List.Chain' (· ≤ ·) ((progressUpdates (runWorker env).trace).map (fun u => u.progress)) ∧
    ((progressUpdates (runWorker env).trace).map (fun u => u.progress)).getLast? =
      some 100 ∧
    (progressUpdates (runWorker env).trace).getLast? = some (mkProgressUpdate 9 .completed) := by
  have htrace : progressUpdates (runWorker env).trace =
      [mkProgressUpdate 0 .processing, mkProgressUpdate 1 .processing,
       mkProgressUpdate 5 .processing, mkProgressUpdate 6 .processing,
       mkProgressUpdate 7 .processing, mkProgressUpdate 8 .processing,
       mkProgressUpdate 9 .completed] := by
    simp [runWorker, if_neg hsc, hr, hi, he, hu, generateAndStoreEmbeddings, progressUpdates]
  have hmap : (progressUpdates (runWorker env).trace).map (fun u => u.progress) =
      [10, 20, 60, 70, 80, 90, 100] := by
    rw [htrace]
    simp only [List.map_cons, List.map_nil, mkProgressUpdate_progress]
    norm_num
  refine ⟨htrace, hmap, ?_, ?_, ?_, ?_⟩
  · intro u hu2
    rw [htrace] at hu2
    simp only [List.mem_cons, List.not_mem_nil, or_false] at hu2
    rcases hu2 with h | h | h | h | h | h | h <;>
      (subst h; exact ⟨mkProgressUpdate_progress _ _, rfl, rfl, rfl⟩)
  · rw [hmap]; norm_num [List.chain'_cons]
  · rw [hmap]; rfl
  · rw [htrace]; rfl

/-- C5, witness: the amended statement evaluated on the concrete fully
successful run. -/
theorem c5_progress_steps_witness :
    (progressUpdates (runWorker envOk).trace).map (fun u => u.progress) =
      [10, 20, 60, 70, 80, 90, 100] :=
  (c5_progress_steps envOk _ "report-1" (by decide) rfl rfl rfl rfl).2.1

/-- C5, counterexample to the claim as stated: in a successful run the
persisted current-step labels never include the three per-agent labels, so
the job does not take each of the ten step labels. -/
theorem c5_progress_steps_counterexample :
    (runWorker envOk).result = .ok "report-1" ∧
    "Agent A (Gemini/Jina) searching" ∈ REPORT_STEPS ∧
    "Agent A (Gemini/Jina) searching" ∉
      (progressUpdates (runWorker envOk).trace).map (fun u => u.current_step) ∧
    "Agent B (Perplexity) deep research" ∉
      (progressUpdates (runWorker envOk).trace).map (fun u => u.current_step) ∧
    "Agent C (OpenAI) deep research" ∉
      (progressUpdates (runWorker envOk).trace).map (fun u => u.current_step) := by
  refine ⟨rfl, by decide, by decide, by decide, by decide⟩

/-- C6, amended. When the report row has been persisted and the embedding
step throws, `generateAndStoreEmbeddings` logs and rethrows, and the worker
has no local handler: the job is marked failed with the embedding error,
the persisted report row remains (the insert already happened), and the run
never reaches a `completed` status. -/
theorem c6_embed_failure_fails_job (env : WorkerEnv) (emsg : String)
    (rep : GeneratedReport) (rid : String) (hsc : successCountW env ≠ 0)
    (hr : (reconcileResearch (substitutedResearch env) env.elapsedSec
      env.reconcileCalls).result = .ok rep)
    (hi : env.insertOutcome = .ok rid) (he : env.embedOutcome = .error emsg) :
    (runWorker env).result = .error emsg ∧
    WorkerEv.reportInsert (env.entityTotalReports.getD 0 + 1) ∈ (runWorker env).trace ∧
    WorkerEv.embedCall ∈ (runWorker env).trace ∧
    WorkerEv.markFailed emsg ∈ (runWorker env).trace ∧
    (∀ u ∈ progressUpdates (runWorker env).trace, u.status ≠ JobStatus.completed) := by
  have hge : generateAndStoreEmbeddings env.embedOutcome = .error emsg := by
    rw [he]; rfl
  have htrace : (runWorker env).trace =
      [.progress (mkProgressUpdate 0 .processing), .progress (mkProgressUpdate 1 .processing),
       .progress (mkProgressUpdate 5 .processing), .reconcileCall,
       .progress (mkProgressUpdate 6 .processing),
       .reportInsert (env.entityTotalReports.getD 0 + 1),
       .progress (mkProgressUpdate 7 .processing), .embedCall, .markFailed emsg] := by
    simp [runWorker, if_neg hsc, hr, hi, hge, failRun]
  have hres : (runWorker env).result = .error emsg := by
    simp [runWorker, if_neg hsc, hr, hi, hge, failRun]
  refine ⟨hres, ?_, ?_, ?_, ?_⟩
  · rw [htrace]; simp
  · rw [htrace]; simp
  · rw [htrace]; simp
  · intro u hu2
    rw [htrace] at hu2
    simp only [progressUpdates, List.filterMap_cons, List.filterMap_nil] at hu2
    simp only [List.mem_cons, List.not_mem_nil, or_false] at hu2
    rcases hu2 with h | h | h | h | h <;> (subst h; simp [mkProgressUpdate])

/-- A run environment in which everything succeeds except the embedding
step. -/
def envEmbedFail : WorkerEnv where
  geminiOutcome := .ok researchW.gemini
  perplexityOutcome := .ok researchW.perplexity
  openaiOutcome := .ok researchW.openai
  entityTotalReports := some 0
  reconcileCalls := fun _ => .ok (validText, 7)
  elapsedSec := 42
  insertOutcome := .ok "report-1"
  embedOutcome := .error "embedding failed"
  updateEntityOutcome := .ok ()

/-- C6, witness: the amended statement on the concrete run whose embedding
step throws. -/
theorem c6_embed_failure_fails_job_witness :
    (runWorker envEmbedFail).result = .error "embedding failed" ∧
    WorkerEv.reportInsert 1 ∈ (runWorker envEmbedFail).trace :=
  ⟨(c6_embed_failure_fails_job envEmbedFail "embedding failed" _ "report-1"
      (by decide) rfl rfl rfl).1,
   (c6_embed_failure_fails_job envEmbedFail "embedding failed" _ "report-1"
      (by decide) rfl rfl rfl).2.1⟩

/-- C6, counterexample to the claim as stated: in a run whose report row
was persisted and whose embedding step throws, the job result is the
embedding error and the `failed` status is written — the run does not
proceed to `completed`. -/
theorem c6_embed_failure_fails_job_counterexample :
    WorkerEv.reportInsert 1 ∈ (runWorker envEmbedFail).trace ∧
    (runWorker envEmbedFail).result = .error "embedding failed" ∧
    WorkerEv.markFailed "embedding failed" ∈ (runWorker envEmbedFail).trace ∧
    WorkerEv.entityUpdate ∉ (runWorker envEmbedFail).trace ∧
    (∀ u ∈ progressUpdates (runWorker envEmbedFail).trace,
      u.status ≠ JobStatus.completed) := by
  refine ⟨by decide, rfl, by decide, by decide, ?_⟩
  intro u hu2
  have ht : progressUpdates (runWorker envEmbedFail).trace =
      [mkProgressUpdate 0 .processing, mkProgressUpdate 1 .processing,
       mkProgressUpdate 5 .processing, mkProgressUpdate 6 .processing,
       mkProgressUpdate 7 .processing] := rfl
  rw [ht] at hu2
  simp only [List.mem_cons, List.not_mem_nil, or_false] at hu2
  rcases hu2 with h | h | h | h | h <;> (subst h; simp [mkProgressUpdate])

/-! ### Entity-manager lemmas -/

/-- Lookup in the overwrite half of a spread: the keys of `a` with the
value of `b` where `b` has the key. -/
theorem lookup_spread_map (a b : List (String × Json)) (k : String) :
    (a.map fun (p : String × Json) => (p.1, (b.lookup p.1).getD p.2)).lookup k =
      (a.lookup k).map fun v => (b.lookup k).getD v := by
  induction a with
  | nil => simp [List.lookup]
  | cons p a ih =>
    obtain ⟨k2, w⟩ := p
    by_cases h : k = k2
    · subst h
      rw [List.map_cons]
      rw [lookup_cons_self, lookup_cons_self]
      rfl
    · rw [List.map_cons]
      rw [lookup_cons_ne _ _ h, lookup_cons_ne _ _ h, ih]

/-- Lookup in the addition half of a spread: when `a` lacks the key, the
filter keeps all of the bindings of `b` for that key. -/
theorem lookup_spread_filter (a b : List (String × Json)) (k : String)
    (ha : a.lookup k = none) :
    (b.filter fun (p : String × Json) => (a.lookup p.1).isNone).lookup k = b.lookup k := by
  induction b with
  | nil => rfl
  | cons p b ih =>
    obtain ⟨k2, w⟩ := p
    rw [List.filter_cons]
    by_cases hf : ((a.lookup ((k2, w) : String × Json).1).isNone = true)
    · rw [if_pos hf]
      by_cases h : k = k2
      · subst h; rw [lookup_cons_self, lookup_cons_self]
      · rw [lookup_cons_ne _ _ h, lookup_cons_ne _ _ h, ih]
    · rw [if_neg hf]
      by_cases h : k = k2
      · subst h
        exact absurd (by simp [ha]) hf
      · rw [ih, lookup_cons_ne _ _ h]

/-- The spread `{...a, ...b}` gives `b` priority on the keys it has. -/
theorem lookup_spreadMerge_right (a b : List (String × Json)) (k : String) (w : Json)
    (hb : b.lookup k = some w) : (spreadMerge a b).lookup k = some w := by
  unfold spreadMerge
  rw [lookup_append, lookup_spread_map]
  cases ha : a.lookup k with
  | some v => simp [hb]
  | none =>
    rw [lookup_spread_filter a b k ha, hb]
    rfl

/-- The spread `{...a, ...b}` keeps the binding of `a` on the keys `b`
lacks. -/
theorem lookup_spreadMerge_left (a b : List (String × Json)) (k : String)
    (hb : b.lookup k = none) : (spreadMerge a b).lookup k = a.lookup k := by
  unfold spreadMerge
  rw [lookup_append, lookup_spread_map]
  cases ha : a.lookup k with
  | some v => simp [hb]
  | none =>
    rw [lookup_spread_filter a b k ha, hb]
    rfl

/-- Serialization drops no binding that does not hold `undefined`: the
first binding of a key survives with its value serialized. -/
theorem lookup_serializeFields (fs : List (String × Json)) (k : String) (v : Json)
    (h : fs.lookup k = some v) (hv : v ≠ .undef) :
    (serializeFields fs).lookup k = some (jsonSerialize v) := by
  induction fs with
  | nil => simp [List.lookup] at h
  | cons p fs ih =>
    obtain ⟨k2, w⟩ := p
    by_cases hk : k = k2
    · subst hk
      rw [lookup_cons_self] at h
      injection h with h
      subst h
      cases w with
      | undef => exact absurd rfl hv
      | null => exact lookup_cons_self _ _ _
      | bool b => exact lookup_cons_self _ _ _
      | num q => exact lookup_cons_self _ _ _
      | str s => exact lookup_cons_self _ _ _
      | arr xs => exact lookup_cons_self _ _ _
      | obj gs => exact lookup_cons_self _ _ _
    · rw [lookup_cons_ne _ _ hk] at h
      cases w with
      | undef => exact ih h
      | null => rw [show serializeFields ((k2, .null) :: fs) =
          (k2, .null) :: serializeFields fs from rfl, lookup_cons_ne _ _ hk]; exact ih h
      | bool b => rw [show serializeFields ((k2, .bool b) :: fs) =
          (k2, .bool b) :: serializeFields fs from rfl, lookup_cons_ne _ _ hk]; exact ih h
      | num q => rw [show serializeFields ((k2, .num q) :: fs) =
          (k2, .num q) :: serializeFields fs from rfl, lookup_cons_ne _ _ hk]; exact ih h
      | str s => rw [show serializeFields ((k2, .str s) :: fs) =
          (k2, .str s) :: serializeFields fs from rfl, lookup_cons_ne _ _ hk]; exact ih h
      | arr xs => rw [show serializeFields ((k2, .arr xs) :: fs) =
          (k2, jsonSerialize (.arr xs)) :: serializeFields fs from rfl,
          lookup_cons_ne _ _ hk]; exact ih h
      | obj gs => rw [show serializeFields ((k2, .obj gs) :: fs) =
          (k2, jsonSerialize (.obj gs)) :: serializeFields fs from rfl,
          lookup_cons_ne _ _ hk]; exact ih h

/-- A scrape payload never carries an `email` binding. -/
theorem canonicalDataOfScrape_email (d : LinkedInExtractedData) :
    (canonicalDataOfScrape d).lookup "email" = none := by
  unfold canonicalDataOfScrape
  repeat rw [lookup_cons_ne _ _ (by decide)]
  rfl

/-- A scrape payload never carries a `phone` binding. -/
theorem canonicalDataOfScrape_phone (d : LinkedInExtractedData) :
    (canonicalDataOfScrape d).lookup "phone" = none := by
  unfold canonicalDataOfScrape
  repeat rw [lookup_cons_ne _ _ (by decide)]
  rfl

/-- The scrape merge never changes the `email` binding of the stored
canonical data. -/
theorem upsertMergedData_email (a : List (String × Json)) (d : LinkedInExtractedData) :
    (upsertMergedData a (canonicalDataOfScrape d)).lookup "email" = a.lookup "email" := by
  simp only [upsertMergedData]
  have hbase : (spreadMerge a (canonicalDataOfScrape d)).lookup "email" = a.lookup "email" :=
    lookup_spreadMerge_left _ _ _ (canonicalDataOfScrape_email d)
  by_cases he : truthy (fget a "email") = true
  · rw [if_pos he]
    by_cases hp : truthy (fget a "phone") = true
    · rw [if_pos hp, lookup_setFObj_ne _ _ _ _ (by decide), lookup_setFObj_self]
      unfold fget
      cases ha : a.lookup "email" with
      | some v => rfl
      | none => unfold fget at he; rw [ha] at he; simp [truthy] at he
    · rw [if_neg hp, lookup_setFObj_self]
      unfold fget
      cases ha : a.lookup "email" with
      | some v => rfl
      | none => unfold fget at he; rw [ha] at he; simp [truthy] at he
  · rw [if_neg he]
    by_cases hp : truthy (fget a "phone") = true
    · rw [if_pos hp, lookup_setFObj_ne _ _ _ _ (by decide)]
      exact hbase
    · rw [if_neg hp]
      exact hbase

/-- The scrape merge never changes the `phone` binding of the stored
canonical data. -/
theorem upsertMergedData_phone (a : List (String × Json)) (d : LinkedInExtractedData) :
    (upsertMergedData a (canonicalDataOfScrape d)).lookup "phone" = a.lookup "phone" := by
  simp only [upsertMergedData]
  have hbase : (spreadMerge a (canonicalDataOfScrape d)).lookup "phone" = a.lookup "phone" :=
    lookup_spreadMerge_left _ _ _ (canonicalDataOfScrape_phone d)
  by_cases hp : truthy (fget a "phone") = true
  · rw [if_pos hp]
    by_cases he : truthy (fget a "email") = true
    · rw [if_pos he, lookup_setFObj_self]
      unfold fget
      cases ha : a.lookup "phone" with
      | some v => rfl
      | none => unfold fget at hp; rw [ha] at hp; simp [truthy] at hp
    · rw [if_neg he, lookup_setFObj_self]
      unfold fget
      cases ha : a.lookup "phone" with
      | some v => rfl
      | none => unfold fget at hp; rw [ha] at hp; simp [truthy] at hp
  · rw [if_neg hp]
    by_cases he : truthy (fget a "email") = true
    · rw [if_pos he, lookup_setFObj_ne _ _ _ _ (by decide)]
      exact hbase
    · rw [if_neg he]
      exact hbase

/-- Every non-contact key of the scrape payload wins the merge. -/
theorem upsertMergedData_newKey (a newData : List (String × Json)) (k : String) (w : Json)
    (hb : newData.lookup k = some w) (hke : k ≠ "email") (hkp : k ≠ "phone") :
    (upsertMergedData a newData).lookup k = some w := by
  simp only [upsertMergedData]
  have hbase : (spreadMerge a newData).lookup k = some w :=
    lookup_spreadMerge_right _ _ _ _ hb
  by_cases he : truthy (fget a "email") = true
  · rw [if_pos he]
    by_cases hp : truthy (fget a "phone") = true
    · rw [if_pos hp, lookup_setFObj_ne _ _ _ _ hkp, lookup_setFObj_ne _ _ _ _ hke]
      exact hbase
    · rw [if_neg hp, lookup_setFObj_ne _ _ _ _ hke]
      exact hbase
  · rw [if_neg he]
    by_cases hp : truthy (fget a "phone") = true
    · rw [if_pos hp, lookup_setFObj_ne _ _ _ _ hkp]
      exact hbase
    · rw [if_neg hp]
      exact hbase

/-- A stored entity with location and contact data, used by the concrete
entity-manager vectors. -/
def entityJ : EntityRecord where
  id := "e1"
  linkedin_url := "https://linkedin.example/in/j"
  entity_type := "person"
  canonical_data := [("full_name", .str "J"), ("location", .str "Old City"),
    ("email", .str "j@example.com"), ("phone", .str "+1 555 0100")]
  last_scraped_at := 1
  scraped_by_count := 1
  total_reports := 2
  latest_report_id := some "r0"
  latest_report_at := some 1
  created_at := 0
  updated_at := 1
  org_id := "o1"

/-- A later scrape of the same profile carrying a new headline but no
location, email or phone. -/
def scrapeNoLoc : LinkedInExtractedData where
  fullName := "J"
  profileUrl := "https://linkedin.example/in/j"
  headline := .str "New headline"

/-- C7, amended. `upsertFromScrape` on an existing entity merges the new
facts over canonical data, preserves previously-known email and phone, and
increments `scraped_by_count` by exactly one — but it appends no Entity
Version record at all; only `updateFromReport` inserts a version row, and
that row is tagged `report`, so a canonical-data change from a scrape
produces no snapshot. -/
theorem c7_scrape_upsert_no_version (e : EntityRecord) (url etype : String)
    (d : LinkedInExtractedData) (orgId : String) (now : Nat) (newId : String)
    (rid : String) (rd : List (String × Json)) (now2 : Nat) :
    (upsertFromScrape (some e) url etype d orgId now newId).versionsInserted = [] ∧
    (upsertFromScrape (some e) url etype d orgId now newId).entity.scraped_by_count =
      e.scraped_by_count + 1 ∧
    ((updateFromReport e rid rd now2).2.map fun v => v.change_source) = ["report"] ∧
    (updateFromReport e rid rd now2).1.total_reports = e.total_reports + 1 ∧
    (∀ s : String, e.canonical_data.lookup "email" = some (.str s) →
      (upsertFromScrape (some e) url etype d orgId now
        newId).entity.canonical_data.lookup "email" = some (.str s)) ∧
    (∀ s : String, e.canonical_data.lookup "phone" = some (.str s) →
      (upsertFromScrape (some e) url etype d orgId now
        newId).entity.canonical_data.lookup "phone" = some (.str s)) := by
  refine ⟨rfl, rfl, rfl, rfl, ?_, ?_⟩
  · intro s hs
    show (serializeFields (upsertMergedData e.canonical_data
      (canonicalDataOfScrape d))).lookup "email" = some (.str s)
    have h1 : (upsertMergedData e.canonical_data (canonicalDataOfScrape d)).lookup "email" =
        some (.str s) := by
      rw [upsertMergedData_email, hs]
    exact lookup_serializeFields _ _ _ h1 (fun h => Json.noConfusion h)
  · intro s hs
    show (serializeFields (upsertMergedData e.canonical_data
      (canonicalDataOfScrape d))).lookup "phone" = some (.str s)
    have h1 : (upsertMergedData e.canonical_data (canonicalDataOfScrape d)).lookup "phone" =
        some (.str s) := by
      rw [upsertMergedData_phone, hs]
    exact lookup_serializeFields _ _ _ h1 (fun h => Json.noConfusion h)

/-- C7, witness: the amended statement at the concrete entity and scrape. -/
theorem c7_scrape_upsert_no_version_witness :
    (upsertFromScrape (some entityJ) entityJ.linkedin_url "person" scrapeNoLoc "o1" 5
      "new-id").versionsInserted = [] ∧
    (upsertFromScrape (some entityJ) entityJ.linkedin_url "person" scrapeNoLoc "o1" 5
      "new-id").entity.canonical_data.lookup "email" = some (.str "j@example.com") :=
  ⟨(c7_scrape_upsert_no_version entityJ entityJ.linkedin_url "person" scrapeNoLoc "o1" 5
      "new-id" "r9" [] 9).1,
   (c7_scrape_upsert_no_version entityJ entityJ.linkedin_url "person" scrapeNoLoc "o1" 5
      "new-id" "r9" [] 9).2.2.2.2.1 "j@example.com" rfl⟩

/-- C7, counterexample to the claim as stated: a scrape upsert that changes
canonical data (it adds a headline) inserts no Entity Version row, so no
version tagged `scrape` is appended and canonical data changes without a
snapshot. -/
theorem c7_scrape_upsert_no_version_counterexample :
    (upsertFromScrape (some entityJ) entityJ.linkedin_url "person" scrapeNoLoc "o1" 5
      "new-id").versionsInserted = [] ∧
    (upsertFromScrape (some entityJ) entityJ.linkedin_url "person" scrapeNoLoc "o1" 5
      "new-id").entity.canonical_data.lookup "headline" = some (.str "New headline") ∧
    entityJ.canonical_data.lookup "headline" = none :=
  ⟨rfl, rfl, rfl⟩

/-- C8. A scrape upsert on an existing entity never touches
`total_reports`, the latest-report pointers, nor the identity fields; it
changes only the canonical data, the observation counter (incremented by
one) and the two timestamps; and a stored email or phone value survives
every scrape payload (all scrape payloads lack those fields). -/
theorem c8_scrape_idempotent_fields (e : EntityRecord) (url etype : String)
    (d : LinkedInExtractedData) (orgId : String) (now : Nat) (newId : String) :
    (upsertFromScrape (some e) url etype d orgId now newId).entity.total_reports =
      e.total_reports ∧
    (upsertFromScrape (some e) url etype d orgId now newId).entity.latest_report_id =
      e.latest_report_id ∧
    (upsertFromScrape (some e) url etype d orgId now newId).entity.latest_report_at =
      e.latest_report_at ∧
    (upsertFromScrape (some e) url etype d orgId now newId).entity.id = e.id ∧
    (upsertFromScrape (some e) url etype d orgId now newId).entity.linkedin_url =
      e.linkedin_url ∧
    (upsertFromScrape (some e) url etype d orgId now newId).entity.entity_type =
      e.entity_type ∧
    (upsertFromScrape (some e) url etype d orgId now newId).entity.org_id = e.org_id ∧
    (upsertFromScrape (some e) url etype d orgId now newId).entity.created_at =
      e.created_at ∧
    (upsertFromScrape (some e) url etype d orgId now newId).entity.scraped_by_count =
      e.scraped_by_count + 1 ∧
    (upsertFromScrape (some e) url etype d orgId now newId).entity.last_scraped_at = now ∧
    (upsertFromScrape (some e) url etype d orgId now newId).entity.updated_at = now ∧
    (∀ v, e.canonical_data.lookup "email" = some v → v ≠ .undef →
      (upsertFromScrape (some e) url etype d orgId now
        newId).entity.canonical_data.lookup "email" = some (jsonSerialize v)) ∧
    (∀ v, e.canonical_data.lookup "phone" = some v → v ≠ .undef →
      (upsertFromScrape (some e) url etype d orgId now
        newId).entity.canonical_data.lookup "phone" = some (jsonSerialize v)) := by
  refine ⟨rfl, rfl, rfl, rfl, rfl, rfl, rfl, rfl, rfl, rfl, rfl, ?_, ?_⟩
  · intro v hv hvu
    show (serializeFields (upsertMergedData e.canonical_data
      (canonicalDataOfScrape d))).lookup "email" = some (jsonSerialize v)
    have h1 : (upsertMergedData e.canonical_data (canonicalDataOfScrape d)).lookup "email" =
        some v := by rw [upsertMergedData_email, hv]
    exact lookup_serializeFields _ _ _ h1 hvu
  · intro v hv hvu
    show (serializeFields (upsertMergedData e.canonical_data
      (canonicalDataOfScrape d))).lookup "phone" = some (jsonSerialize v)
    have h1 : (upsertMergedData e.canonical_data (canonicalDataOfScrape d)).lookup "phone" =
        some v := by rw [upsertMergedData_phone, hv]
    exact lookup_serializeFields _ _ _ h1 hvu

/-- C8, witness: the sticky-contact conclusion at the concrete entity (the
second scrape omits the phone present in the store, yet the stored phone
survives). -/
theorem c8_scrape_idempotent_fields_witness :
    (upsertFromScrape (some entityJ) entityJ.linkedin_url "person" scrapeNoLoc "o1" 5
      "new-id").entity.canonical_data.lookup "phone" = some (.str "+1 555 0100") ∧
    (upsertFromScrape (some entityJ) entityJ.linkedin_url "person" scrapeNoLoc "o1" 5
      "new-id").entity.total_reports = entityJ.total_reports :=
  ⟨(c8_scrape_idempotent_fields entityJ entityJ.linkedin_url "person" scrapeNoLoc "o1" 5
      "new-id").2.2.2.2.2.2.2.2.2.2.2.2 (.str "+1 555 0100") rfl
      (fun h => Json.noConfusion h),
   (c8_scrape_idempotent_fields entityJ entityJ.linkedin_url "person" scrapeNoLoc "o1" 5
      "new-id").1⟩

/-- C10. In the scrape merge only email and phone are sticky: every binding
of the scrape payload other than those wins the merge, whatever its value
(including explicit null and `undefined` for absent fields); concretely, a
stored location vanishes from the persisted canonical data when a later
scrape of the same profile lacks location. -/
theorem c10_scrape_overwrites_nonsticky (e : EntityRecord) (d : LinkedInExtractedData) :
    (∀ k w, k ≠ "email" → k ≠ "phone" →
      (canonicalDataOfScrape d).lookup k = some w →
      (upsertMergedData e.canonical_data (canonicalDataOfScrape d)).lookup k = some w) ∧
    (upsertFromScrape (some entityJ) entityJ.linkedin_url "person" scrapeNoLoc "o1" 5
      "new-id").entity.canonical_data.lookup "location" = none ∧
    entityJ.canonical_data.lookup "location" = some (.str "Old City") :=
  ⟨fun k w hke hkp hb => upsertMergedData_newKey _ _ k w hb hke hkp, rfl, rfl⟩

/-- C10, witness: the location binding of the merge of the concrete entity
with the location-less scrape is the `undefined` of the scrape payload. -/
theorem c10_scrape_overwrites_nonsticky_witness :
    (upsertMergedData entityJ.canonical_data
      (canonicalDataOfScrape scrapeNoLoc)).lookup "location" = some .undef ∧
    (upsertMergedData entityJ.canonical_data
      (canonicalDataOfScrape scrapeNoLoc)).lookup "headline" = some (.str "New headline") :=
  ⟨(c10_scrape_overwrites_nonsticky entityJ scrapeNoLoc).1 "location" Json.undef
      (by decide) (by decide) rfl,
   (c10_scrape_overwrites_nonsticky entityJ scrapeNoLoc).1 "headline"
      (.str "New headline") (by decide) (by decide) rfl⟩

/-! ### Dossier-compiler lemmas -/

/-- Concatenation of a list of strings. -/
def concatList (l : List String) : String :=
  l.foldr (fun a b => a ++ b) ""

/-- A key that looks up to nothing is not among the keys. -/
theorem lookup_none_not_mem {β : Type} (fs : List (String × β)) (k : String)
    (h : fs.lookup k = none) : k ∉ fs.map Prod.fst := by
  induction fs with
  | nil => simp
  | cons p fs ih =>
    obtain ⟨k2, w⟩ := p
    by_cases hk : k = k2
    · subst hk; rw [lookup_cons_self] at h; exact absurd h (by simp)
    · rw [lookup_cons_ne _ _ hk] at h
      simp only [List.map_cons, List.mem_cons]
      rintro (h2 | h2)
      · exact hk h2
      · exact ih h h2

/-- Invariant of the source map: keys are distinct, every entry is keyed by
its URL and carries content longer than 100 characters. -/
def srcInv (m : List (String × SearchResult)) : Prop :=
  (m.map Prod.fst).Nodup ∧ ∀ p ∈ m, 100 < p.2.content.length ∧ p.1 = p.2.url

theorem addSource_inv (m : List (String × SearchResult)) (r : SearchResult)
    (h : srcInv m) : srcInv (addSource m r) := by
  unfold addSource
  by_cases hc : ((m.lookup r.url).isNone = true ∧ 100 < r.content.length)
  · rw [if_pos hc]
    obtain ⟨hnd, hall⟩ := h
    constructor
    · rw [List.map_append]
      simp only [List.map_cons, List.map_nil]
      refine List.Nodup.append hnd (List.nodup_singleton _) ?_
      rw [List.disjoint_singleton]
      exact lookup_none_not_mem m r.url (Option.isNone_iff_eq_none.mp hc.1)
    · intro p hp
      rcases List.mem_append.mp hp with h1 | h1
      · exact hall p h1
      · simp only [List.mem_singleton] at h1
        subst h1
        exact ⟨hc.2, rfl⟩
  · rw [if_neg hc]
    exact h

theorem foldl_addSource_inv (rs : List SearchResult) :
    ∀ m, srcInv m → srcInv (rs.foldl addSource m) := by
  induction rs with
  | nil => intro m h; exact h
  | cons r rs ih => intro m h; exact ih _ (addSource_inv m r h)

theorem mapSet_inv (m : List (String × SearchResult)) (k : String) (v : SearchResult)
    (h : srcInv m) (hlen : 100 < v.content.length) (hurl : v.url = k) :
    srcInv (mapSet m k v) := by
  unfold mapSet
  by_cases hs : ((m.lookup k).isSome = true)
  · rw [if_pos hs]
    obtain ⟨hnd, hall⟩ := h
    constructor
    · have hkeys : ((m.map fun (p : String × SearchResult) =>
          if p.1 = k then (p.1, v) else (p.1, p.2)).map Prod.fst) = m.map Prod.fst := by
        rw [List.map_map]
        refine List.map_congr_left ?_
        rintro ⟨pk, pv⟩ -
        show Prod.fst (if pk = k then (pk, v) else (pk, pv)) = pk
        by_cases h2 : pk = k
        · rw [if_pos h2]
        · rw [if_neg h2]
      rw [hkeys]
      exact hnd
    · intro p hp
      rcases List.mem_map.mp hp with ⟨q, hq, hpq⟩
      obtain ⟨qk, qv⟩ := q
      have hpq2 : (if qk = k then ((qk : String), v) else (qk, qv)) = p := hpq
      by_cases h2 : qk = k
      · rw [if_pos h2] at hpq2
        subst hpq2
        exact ⟨hlen, by show qk = v.url; rw [h2, hurl]⟩
      · rw [if_neg h2] at hpq2
        subst hpq2
        exact hall (qk, qv) hq
  · rw [if_neg hs]
    obtain ⟨hnd, hall⟩ := h
    constructor
    · rw [List.map_append]
      simp only [List.map_cons, List.map_nil]
      refine List.Nodup.append hnd (List.nodup_singleton _) ?_
      rw [List.disjoint_singleton]
      exact lookup_none_not_mem m k (by
        cases hh : m.lookup k with
        | some w => rw [hh] at hs; exact absurd rfl hs
        | none => rfl)
    · intro p hp
      rcases List.mem_append.mp hp with h1 | h1
      · exact hall p h1
      · simp only [List.mem_singleton] at h1
        subst h1
        exact ⟨hlen, hurl.symm⟩

/-- The URLs of the collected values coincide with the map keys. -/
theorem values_url_eq_keys (m : List (String × SearchResult))
    (h : ∀ p ∈ m, p.1 = p.2.url) :
    ((m.map (fun p => p.2)).map (fun s : SearchResult => s.url)) = m.map Prod.fst := by
  induction m with
  | nil => rfl
  | cons p m ih =>
    obtain ⟨pk, pv⟩ := p
    simp only [List.map_cons]
    have h1 : pk = pv.url := h (pk, pv) (List.mem_cons_self _ _)
    rw [← h1]
    rw [ih fun q hq => h q (List.mem_cons_of_mem _ hq)]

/-- The sources drawn from an invariant-preserving map have distinct URLs
and long-enough content. -/
theorem srcInv_values (m : List (String × SearchResult)) (h : srcInv m) :
    ((m.map (fun p => p.2)).map (fun s : SearchResult => s.url)).Nodup ∧
    ∀ s ∈ m.map (fun p => p.2), 100 < s.content.length := by
  constructor
  · rw [values_url_eq_keys m fun p hp => (h.2 p hp).2]
    exact h.1
  · intro s hs
    rcases List.mem_map.mp hs with ⟨q, hq, hpq⟩
    subst hpq
    exact (h.2 q hq).1

/-- The collected sources satisfy the invariant. -/
theorem conductResearchSources_inv (name linkedinUrl : String)
    (batchResults : List (List SearchResult)) (linkedinRead : String) :
    ((conductResearchSources name linkedinUrl batchResults linkedinRead).map
      (fun s => s.url)).Nodup ∧
    (∀ s ∈ conductResearchSources name linkedinUrl batchResults linkedinRead,
      100 < s.content.length) := by
  have base : srcInv (batchResults.flatten.foldl addSource []) :=
    foldl_addSource_inv _ [] ⟨List.nodup_nil, by simp⟩
  have key : ∀ lc : String, srcInv (if linkedinUrl ≠ "" then
      (if lc ≠ "" ∧ 200 < lc.length then
        mapSet (batchResults.flatten.foldl addSource []) linkedinUrl
          { title := "LinkedIn Profile - " ++ name
            url := linkedinUrl
            content := lc }
      else batchResults.flatten.foldl addSource [])
    else batchResults.flatten.foldl addSource []) := by
    intro lc
    by_cases h1 : linkedinUrl ≠ ""
    · rw [if_pos h1]
      by_cases h2 : (lc ≠ "" ∧ 200 < lc.length)
      · rw [if_pos h2]
        refine mapSet_inv _ _ _ base ?_ rfl
        show 100 < lc.length
        omega
      · rw [if_neg h2]
        exact base
    · rw [if_neg h1]
      exact base
  have hm2 : srcInv (conductSourceMap name linkedinUrl batchResults linkedinRead) :=
    key (linkedinRead.take 15000)
  exact srcInv_values _ hm2

/-- Closed form of the formatting loop: some prefix of the blocks is
emitted, each fitting the aggregate cap as appended; when not all sources
fit, the output ends with the truncation summary for the rest, and the
first omitted block is one that would have exceeded the cap. -/
theorem formatLoop_spec (total maxChars : Nat) :
    ∀ (sources : List SearchResult) (i charCount : Nat),
      ∃ k, k ≤ sources.length ∧
        formatLoop sources total i charCount maxChars =
          concatList (blockList (sources.take k) i) ++
            (if k = sources.length then "" else truncationSummary total (i + k)) ∧
        admissible charCount maxChars (blockList (sources.take k) i) ∧
        (∀ h : k < sources.length,
          maxChars < charCount +
            ((blockList (sources.take k) i).map String.length).sum +
            (sourceBlock (i + k) (sources.get ⟨k, h⟩)).length) := by
  intro sources
  induction sources with
  | nil =>
    intro i charCount
    refine ⟨0, Nat.le_refl 0, ?_, trivial, ?_⟩
    · show "" = concatList [] ++ ""
      rfl
    · intro h
      simp at h
  | cons s rest ih =>
    intro i charCount
    by_cases hc : maxChars < charCount + (sourceBlock i s).length
    · refine ⟨0, Nat.zero_le _, ?_, trivial, ?_⟩
      · show formatLoop (s :: rest) total i charCount maxChars =
          concatList [] ++ truncationSummary total (i + 0)
        rw [formatLoop, if_pos hc]
        show truncationSummary total i = "" ++ truncationSummary total (i + 0)
        rw [Nat.add_zero]
        rw [String.empty_append]
      · intro h
        show maxChars < charCount + (([] : List String).map String.length).sum +
          (sourceBlock (i + 0) ((s :: rest).get ⟨0, h⟩)).length
        simpa using hc
    · obtain ⟨k, hk, heq, hadm, hover⟩ := ih (i + 1) (charCount + (sourceBlock i s).length)
      refine ⟨k + 1, Nat.succ_le_succ hk, ?_, ⟨Nat.le_of_not_lt hc, hadm⟩, ?_⟩
      · rw [formatLoop, if_neg hc, heq]
        show sourceBlock i s ++
            (concatList (blockList (rest.take k) (i + 1)) ++ _) =
          concatList (sourceBlock i s :: blockList (rest.take k) (i + 1)) ++ _
        rw [show concatList (sourceBlock i s :: blockList (rest.take k) (i + 1)) =
          sourceBlock i s ++ concatList (blockList (rest.take k) (i + 1)) from rfl]
        rw [String.append_assoc]
        congr 2
        · by_cases hkl : k = rest.length
          · rw [if_pos hkl, if_pos (show k + 1 = (s :: rest).length by
              rw [List.length_cons, hkl])]
          · rw [if_neg hkl, if_neg (show ¬(k + 1 = (s :: rest).length) by
              rw [List.length_cons]; exact fun hcon => hkl (Nat.succ_injective hcon))]
            congr 1
            omega
      · intro h
        have h2 : k < rest.length := by simpa using h
        have := hover h2
        show maxChars < charCount +
          ((sourceBlock i s :: blockList (rest.take k) (i + 1)).map String.length).sum +
          (sourceBlock (i + (k + 1)) ((s :: rest).get ⟨k + 1, h⟩)).length
        rw [show ((s :: rest).get ⟨k + 1, h⟩) = rest.get ⟨k, h2⟩ from rfl]
        rw [show (i + (k + 1)) = (i + 1 + k) from by omega]
        simp only [List.map_cons, List.sum_cons]
        omega

/-- C9. The dossier compiler deduplicates sources by URL across all query
batches and keeps only sources whose content is longer than 100 characters;
the formatter truncates each source block at 5000 characters with an
explicit marker, and emits blocks only while the aggregate cap holds,
replacing all remaining sources by one truncation summary. -/
theorem c9_dossier_dedup_and_bounds :
    (∀ (name linkedinUrl : String) (batchResults : List (List SearchResult))
        (linkedinRead : String),
      ((conductResearchSources name linkedinUrl batchResults linkedinRead).map
        (fun s => s.url)).Nodup ∧
      (∀ s ∈ conductResearchSources name linkedinUrl batchResults linkedinRead,
        100 < s.content.length)) ∧
    (∀ (i : Nat) (s : SearchResult), 5000 < s.content.length →
      sourceBlock i s = "\n" ++ dashLine ++ "\nSOURCE " ++ toString (i + 1) ++ ": " ++
        s.title ++ "\nURL: " ++ s.url ++ "\n" ++ dashLine ++ "\n" ++
        (s.content.take 5000 ++ "\n[... content truncated ...]") ++ "\n\n") ∧
    (∀ (d : ResearchDossier) (maxChars : Nat),
      ∃ k, k ≤ d.sources.length ∧
        formatDossierForLLM d maxChars =
          dossierHeader d ++ concatList (blockList (d.sources.take k) 0) ++
            (if k = d.sources.length then ""
             else truncationSummary d.sources.length k) ∧
        admissible (dossierHeader d).length maxChars (blockList (d.sources.take k) 0) ∧
        (∀ h : k < d.sources.length,
          maxChars < (dossierHeader d).length +
            ((blockList (d.sources.take k) 0).map String.length).sum +
            (sourceBlock k (d.sources.get ⟨k, h⟩)).length)) := by
  refine ⟨conductResearchSources_inv, ?_, ?_⟩
  · intro i s h
    rw [sourceBlock, if_pos h]
  · intro d maxChars
    obtain ⟨k, hk, heq, hadm, hover⟩ :=
      formatLoop_spec d.sources.length maxChars d.sources 0 (dossierHeader d).length
    refine ⟨k, hk, ?_, hadm, ?_⟩
    · rw [formatDossierForLLM, heq, String.append_assoc]
      rw [show (0 + k) = k from by omega]
    · intro h
      have := hover h
      rw [show (0 + k) = k from by omega] at this
      exact this

/-- C9, witness: a source with 5001 characters of content is truncated at
5000 characters with the explicit marker. -/
theorem c9_dossier_dedup_and_bounds_witness :
    sourceBlock 0 ⟨"T", "https://t.example", String.mk (List.replicate 5001 'a'), none⟩ =
      "\n" ++ dashLine ++ "\nSOURCE " ++ toString (0 + 1) ++ ": " ++ "T" ++
      "\nURL: " ++ "https://t.example" ++ "\n" ++ dashLine ++ "\n" ++
      ((String.mk (List.replicate 5001 'a')).take 5000 ++
        "\n[... content truncated ...]") ++ "\n\n" :=
  c9_dossier_dedup_and_bounds.2.1 0
    ⟨"T", "https://t.example", String.mk (List.replicate 5001 'a'), none⟩
    (by show 5000 < (List.replicate 5001 'a').length
        rw [List.length_replicate]
        norm_num)

end Nvestiv
